import Mathlib

/-!
Connection acceptance in `src/ucp/core/ucp_listener.c`

A shallow embedding of the listener code: pointers are natural numbers, `NULL`
function pointers and failed allocations are `none`, and every call into a
collaborator outside the file (endpoint creation, wireup, transport interfaces,
connection managers, the allocator) is answered by an explicit environment
record and logged in a trace of `Event`s.
-/

namespace UcpListener

/-- Status codes used by the listener code; every other error is `UCS_ERR_OTHER`. -/
inductive ucs_status_t where
  | UCS_OK
  | UCS_ERR_IO_ERROR
  | UCS_ERR_NO_MEMORY
  | UCS_ERR_INVALID_PARAM
  | UCS_ERR_UNREACHABLE
  | UCS_ERR_INVALID_ADDR
  | UCS_ERR_OTHER (code : Nat)
  deriving DecidableEq

open ucs_status_t

/-- Modelled from the spec: the endpoint flag word of `ucp_ep.h` (not under src/).
Each flag bit that the listener code reads or writes is one Boolean; the
remaining bits are kept in `other`. -/
structure ucp_ep_flags where
  UCP_EP_FLAG_LISTENER : Bool
  UCP_EP_FLAG_USED : Bool
  UCP_EP_FLAG_CONNECT_REQ_QUEUED : Bool
  other : Nat
  deriving DecidableEq

/-- The part of `ucp_ep_t` the listener code touches: the flag word and
`ucp_ep_ext_gen(ep)->listener` (a listener pointer, `none` for `NULL`). -/
structure ucp_ep where
  flags : ucp_ep_flags
  listener : Option Nat
  deriving DecidableEq

/-- The transport interface record `ucp_worker_iface_t`, as far as this file reads it. -/
structure ucp_worker_iface where
  worker : Nat
  rsc_index : Nat
  listen_port : Nat
  cap_cb_async : Bool
  deriving DecidableEq

/-- The listener object `ucp_listener_t`. `ifaces` is the list of the first
`num_wifaces` entries of `ifaces.wifaces`, `cms` the list of the first
`num_listeners` entries of `cms.listeners`. -/
structure ucp_listener where
  worker : Nat
  accept_cb : Option Nat
  conn_cb : Option Nat
  arg : Nat
  ifaces : List ucp_worker_iface
  cms : List Nat
  deriving DecidableEq

/-- The record `ucp_conn_request_t` captured by the transport callback. -/
structure ucp_conn_request where
  listener : Nat
  uct_req : Nat
  uct_iface : Nat
  client_data : List Nat
  deriving DecidableEq

/-- Answers of one transport resource during `ucp_listen_on_iface`. -/
structure tl_outcome where
  tl_id : Nat
  accessible : Bool
  realloc_ok : Bool
  set_port_status : ucs_status_t
  open_status : ucs_status_t
  init_status : ucs_status_t
  cap_cb_async : Bool
  listen_port : Nat
  deriving DecidableEq

/-- Answers of one connection manager during `ucp_listen_on_cm`. -/
structure cm_outcome where
  create_status : ucs_status_t
  uct_listener : Nat
  get_port_status : ucs_status_t
  query_status : ucs_status_t
  listener_port : Nat
  deriving DecidableEq

/-- Calls that leave the file, with their arguments and (where the code
depends on them) their answers. -/
inductive Event where
  | conn_cb (cb conn_request arg : Nat)
  | accept_cb (cb ep_ptr : Nat) (ep : ucp_ep) (arg : Nat)
  | ucp_ep_create_accept (status : ucs_status_t)
  | ucp_wireup_send_pre_request (ep_ptr : Nat)
  | ucp_wireup_send_request (ep_ptr : Nat)
  | uct_iface_accept (uct_iface uct_req : Nat)
  | uct_iface_reject (uct_iface uct_req : Nat)
  | ucp_ep_destroy_internal (ep_ptr : Nat)
  | ucs_free (ptr : Nat)
  | ucs_free_wifaces
  | ucs_free_listeners
  | ucs_calloc_listener (result : Option Nat)
  | ucs_calloc_listeners (ok : Bool)
  | ucs_sockaddr_set_port (port : Nat) (status : ucs_status_t)
  | ucp_worker_iface_open (slot port : Nat) (answer : tl_outcome)
  | ucp_worker_iface_init (slot : Nat) (status : ucs_status_t)
  | ucp_worker_iface_cleanup (slot : Nat)
  | uct_listener_create (cm port : Nat) (status : ucs_status_t)
  | uct_listener_destroy (uct_listener : Nat)
  deriving DecidableEq

/-! ## The deferred accept task -/

/-- Answers of the collaborators called by one run of
`ucp_listener_conn_request_progress`. -/
structure accept_env where
  ep_create_status : ucs_status_t
  ep_ptr : Nat
  ep : ucp_ep
  send_pre_request_status : ucs_status_t
  send_request_status : ucs_status_t
  iface_accept_status : ucs_status_t
  deriving DecidableEq

/-- What one run of the deferred accept task leaves behind. -/
structure progress_result where
  ret : Nat
  trace : List Event
  ep : Option ucp_ep
  listener : ucp_listener
  deriving DecidableEq

/-- The code from label `out:` to the end of `ucp_listener_conn_request_progress`
(lines 118-127): reject on a non-OK status, free the record, return 1. -/
def conn_request_progress_out (arg : Nat) (conn_request : ucp_conn_request)
    (listener : ucp_listener) (status : ucs_status_t) (trace : List Event)
    (ep : Option ucp_ep) : progress_result :=
  let trace := if status ≠ UCS_OK then
      trace ++ [Event.uct_iface_reject conn_request.uct_iface conn_request.uct_req]
    else trace
  { ret := 1, trace := trace ++ [Event.ucs_free arg], ep := ep, listener := listener }

/-- The function `ucp_listener_conn_request_progress` (lines 65-128). `arg` is
the address of the record, `conn_request` its contents and `listener` the
object `conn_request->listener` points to. -/
def ucp_listener_conn_request_progress (env : accept_env) (arg : Nat)
    (conn_request : ucp_conn_request) (listener : ucp_listener) : progress_result :=
  match listener.conn_cb with
  | some cb =>
    { ret := 1, trace := [Event.conn_cb cb arg listener.arg], ep := none,
      listener := listener }
  | none =>
    let status := env.ep_create_status
    let trace := [Event.ucp_ep_create_accept status]
    if status ≠ UCS_OK then
      conn_request_progress_out arg conn_request listener status trace none
    else
      let ep := env.ep
      let status := if ep.flags.UCP_EP_FLAG_LISTENER then env.send_pre_request_status
        else env.send_request_status
      let trace := trace ++ [if ep.flags.UCP_EP_FLAG_LISTENER
        then Event.ucp_wireup_send_pre_request env.ep_ptr
        else Event.ucp_wireup_send_request env.ep_ptr]
      if status ≠ UCS_OK then
        conn_request_progress_out arg conn_request listener status trace (some ep)
      else
        let status := env.iface_accept_status
        let trace := trace ++
          [Event.uct_iface_accept conn_request.uct_iface conn_request.uct_req]
        if status ≠ UCS_OK then
          conn_request_progress_out arg conn_request listener status
            (trace ++ [Event.ucp_ep_destroy_internal env.ep_ptr]) none
        else
          match listener.accept_cb with
          | some cb =>
            if ep.flags.UCP_EP_FLAG_LISTENER then
              conn_request_progress_out arg conn_request listener status trace
                (some { ep with listener := some conn_request.listener })
            else
              let ep := { ep with flags := { ep.flags with UCP_EP_FLAG_USED := true } }
              conn_request_progress_out arg conn_request listener status
                (trace ++ [Event.accept_cb cb env.ep_ptr ep listener.arg]) (some ep)
          | none =>
            conn_request_progress_out arg conn_request listener status trace (some ep)

/-! ## The worker's progress queue and listener teardown -/

/-- The callbacks that may sit in the worker's progress queue. -/
inductive ucs_callback_t where
  | ucp_listener_accept_cb_progress
  | ucp_listener_conn_request_progress
  | other (id : Nat)
  deriving DecidableEq

/-- One element `ucs_callbackq_elem_t` of the progress queue. -/
structure ucs_callbackq_elem where
  cb : ucs_callback_t
  arg : Nat
  deriving DecidableEq

/-- The part of `ucp_worker_t` this file uses: the connection mode reported by
`ucp_worker_sockaddr_is_cm_proto` and the queue `worker->uct->progress_q`. -/
structure ucp_worker where
  sockaddr_is_cm_proto : Bool
  progress_q : List ucs_callbackq_elem
  deriving DecidableEq

/-- The predicate `ucp_listener_remove_filter` (lines 130-136): `elem->arg`
itself is taken as the listener pointer and compared with `arg`. -/
def ucp_listener_remove_filter (elem : ucs_callbackq_elem) (arg : Nat) : Bool :=
  decide (elem.cb = ucs_callback_t.ucp_listener_conn_request_progress) &&
    decide (elem.arg = arg)

/-- Modelled from the spec: `ucs_callbackq_remove_if` (ucs/datastruct/callbackq.c,
not under src/) removes from the queue every element the predicate accepts and
keeps the others in order. -/
def ucs_callbackq_remove_if (q : List ucs_callbackq_elem)
    (pred : ucs_callbackq_elem → Nat → Bool) (arg : Nat) : List ucs_callbackq_elem :=
  q.filter (fun e => !pred e arg)

/-- The loop of `ucp_listener_close_ifaces` (lines 221-228) from index `i` on;
`none` when `ucs_assert_always(worker == listener->worker)` fails. -/
def ucp_listener_close_ifaces_loop (listener_ptr listener_worker : Nat) :
    List ucp_worker_iface → Nat → List ucs_callbackq_elem →
    Option (List ucs_callbackq_elem × List Event)
  | [], _, q => some (q, [])
  | w :: ws, i, q =>
    if w.worker ≠ listener_worker then none
    else
      let q := ucs_callbackq_remove_if q ucp_listener_remove_filter listener_ptr
      match ucp_listener_close_ifaces_loop listener_ptr listener_worker ws (i + 1) q with
      | none => none
      | some (q, trace) => some (q, Event.ucp_worker_iface_cleanup i :: trace)

/-- The function `ucp_listener_close_ifaces` (lines 214-231). `worker` is the
object `listener->worker` points to, `listener_ptr` the address of the listener;
`none` when a `ucs_assert_always` fails. -/
def ucp_listener_close_ifaces (worker : ucp_worker) (listener_ptr : Nat)
    (listener : ucp_listener) : Option (ucp_worker × List Event) :=
  if worker.sockaddr_is_cm_proto then none
  else
    match ucp_listener_close_ifaces_loop listener_ptr listener.worker listener.ifaces 0
        worker.progress_q with
    | none => none
    | some (q, trace) =>
      some ({ worker with progress_q := q }, trace ++ [Event.ucs_free_wifaces])

/-- The function `ucp_listener_close_uct_listeners` (lines 198-212). -/
def ucp_listener_close_uct_listeners (worker : ucp_worker) (listener : ucp_listener) :
    Option (ucp_listener × List Event) :=
  if !worker.sockaddr_is_cm_proto then none
  else
    some ({ listener with cms := [] },
      listener.cms.map Event.uct_listener_destroy ++ [Event.ucs_free_listeners])

/-- The function `ucp_listener_destroy` (lines 485-496). -/
def ucp_listener_destroy (worker : ucp_worker) (listener_ptr : Nat)
    (listener : ucp_listener) : Option (ucp_worker × List Event) :=
  if worker.sockaddr_is_cm_proto then
    match ucp_listener_close_uct_listeners worker listener with
    | none => none
    | some (_, trace) => some (worker, trace ++ [Event.ucs_free listener_ptr])
  else
    match ucp_listener_close_ifaces worker listener_ptr listener with
    | none => none
    | some (worker, trace) => some (worker, trace ++ [Event.ucs_free listener_ptr])

/-- The queued deferred accept tasks whose connection request (looked up in the
live records `heap`) was captured for the listener at address `listener_ptr`. -/
def pending_conn_requests (heap : List (Nat × ucp_conn_request)) (listener_ptr : Nat)
    (q : List ucs_callbackq_elem) : List ucs_callbackq_elem :=
  q.filter (fun e =>
    decide (e.cb = ucs_callback_t.ucp_listener_conn_request_progress) &&
      (match heap.lookup e.arg with
       | some r => decide (r.listener = listener_ptr)
       | none => false))

/-! ## Query -/

/-- Modelled from the spec: the field mask of `ucp_listener_attr_t` (ucp.h, not
under src/), one Boolean for the port bit. -/
structure ucp_listener_attr_field where
  UCP_LISTENER_ATTR_FIELD_PORT : Bool
  other : Nat
  deriving DecidableEq

/-- The record `ucp_listener_attr_t`. -/
structure ucp_listener_attr where
  field_mask : ucp_listener_attr_field
  port : Nat
  deriving DecidableEq

/-- The function `ucp_listener_query` (lines 175-196); `none` when the listener has
no interface, where the code reads `wifaces[0]` outside the array. -/
def ucp_listener_query (listener : ucp_listener) (attr : ucp_listener_attr) :
    Option (ucs_status_t × ucp_listener_attr) :=
  match listener.ifaces with
  | [] => none
  | w :: ws =>
    let port := w.listen_port
    if ws.any (fun x => decide (port ≠ x.listen_port)) then some (UCS_ERR_IO_ERROR, attr)
    else if attr.field_mask.UCP_LISTENER_ATTR_FIELD_PORT then
      some (UCS_OK, { attr with port := port })
    else some (UCS_OK, attr)

/-! ## Listener creation -/

/-- Modelled from the spec: the field mask of `ucp_listener_params_t` (ucp.h, not
under src/), one Boolean per bit. -/
structure ucp_listener_params_field where
  UCP_LISTENER_PARAM_FIELD_SOCK_ADDR : Bool
  UCP_LISTENER_PARAM_FIELD_ACCEPT_HANDLER : Bool
  UCP_LISTENER_PARAM_FIELD_CONN_HANDLER : Bool
  other : Nat
  deriving DecidableEq

/-- The address `params->sockaddr.addr` points to. -/
structure sockaddr where
  sa_family : Nat
  port : Nat
  deriving DecidableEq

/-- The record `ucp_listener_params_t`; `none` is a `NULL` pointer. -/
structure ucp_listener_params where
  field_mask : ucp_listener_params_field
  sockaddr_addr : Option sockaddr
  accept_handler_cb : Option Nat
  accept_handler_arg : Nat
  conn_handler_cb : Option Nat
  conn_handler_arg : Nat
  deriving DecidableEq

/-- Answers of the collaborators during one `ucp_listener_create` call: the
allocator, `ucs_sockaddr_get_port` on the target address, the wake-up feature
bit of the context, the sockaddr transports in priority order and the
connection managers of the worker. -/
structure create_env where
  listener_alloc : Option Nat
  get_port_status : ucs_status_t
  features_wakeup : Bool
  tls : List tl_outcome
  listeners_alloc_ok : Bool
  cms : List cm_outcome
  deriving DecidableEq

/-- State at the exit of the loop of `ucp_listen_on_iface`: `exit` is the status
carried by `goto err_close_listener_wifaces` (`none` when the loop ran to its
end), `wifaces` the interfaces stored and counted in `num_wifaces`. -/
structure iface_loop_result where
  exit : Option ucs_status_t
  wifaces : List ucp_worker_iface
  addr_port : Nat
  trace : List Event
  deriving DecidableEq

/-- The call of `ucs_sockaddr_set_port` guarded by `if (port)` (lines 364-376):
made only when the local `port` is not 0. -/
def set_port_events (port : Nat) (r : tl_outcome) : List Event :=
  if port ≠ 0 then [Event.ucs_sockaddr_set_port port r.set_port_status] else []

/-- The port written in the target address once the guarded
`ucs_sockaddr_set_port` has succeeded or was skipped: the call writes through
`params->sockaddr.addr`, so a skipped call leaves the port written before. -/
def listen_addr_port (port addr_port : Nat) : Nat :=
  if port ≠ 0 then port else addr_port

/-- The loop of `ucp_listen_on_iface` (lines 335-407) over the remaining
transports, from `sockaddr_tls` stored interfaces, the local `port` and the port
`addr_port` currently written in the target address. -/
def ucp_listen_on_iface_loop (wakeup : Bool) (worker_ptr : Nat) :
    List tl_outcome → Nat → Nat → Nat → iface_loop_result
  | [], _, _, addr_port => { exit := none, wifaces := [], addr_port := addr_port, trace := [] }
  | r :: rs, sockaddr_tls, port, addr_port =>
    if !r.accessible then
      ucp_listen_on_iface_loop wakeup worker_ptr rs sockaddr_tls port addr_port
    else if !r.realloc_ok then
      { exit := some UCS_ERR_NO_MEMORY, wifaces := [], addr_port := addr_port, trace := [] }
    else if port ≠ 0 ∧ r.set_port_status ≠ UCS_OK then
      { exit := some r.set_port_status, wifaces := [], addr_port := addr_port,
        trace := set_port_events port r }
    else if r.open_status ≠ UCS_OK then
      { exit := some r.open_status, wifaces := [],
        addr_port := listen_addr_port port addr_port,
        trace := set_port_events port r ++
          [Event.ucp_worker_iface_open sockaddr_tls (listen_addr_port port addr_port) r] }
    else if r.init_status ≠ UCS_OK ∨ (wakeup = true ∧ r.cap_cb_async = false) then
      { exit := some r.init_status, wifaces := [],
        addr_port := listen_addr_port port addr_port,
        trace := set_port_events port r ++
          [Event.ucp_worker_iface_open sockaddr_tls (listen_addr_port port addr_port) r,
           Event.ucp_worker_iface_init sockaddr_tls r.init_status,
           Event.ucp_worker_iface_cleanup sockaddr_tls] }
    else
      let wiface : ucp_worker_iface :=
        { worker := worker_ptr, rsc_index := r.tl_id, listen_port := r.listen_port,
          cap_cb_async := r.cap_cb_async }
      let rest := ucp_listen_on_iface_loop wakeup worker_ptr rs (sockaddr_tls + 1)
        wiface.listen_port (listen_addr_port port addr_port)
      { rest with
        wifaces := wiface :: rest.wifaces
        trace := set_port_events port r ++
          [Event.ucp_worker_iface_open sockaddr_tls (listen_addr_port port addr_port) r,
           Event.ucp_worker_iface_init sockaddr_tls r.init_status] ++ rest.trace }

/-- What a backend open leaves behind. -/
structure listen_result where
  status : ucs_status_t
  listener : ucp_listener
  worker : ucp_worker
  addr_port : Nat
  trace : List Event
  deriving DecidableEq

/-- The function `ucp_listen_on_iface` (lines 306-422), called on the
zero-initialised listener that `ucp_listener_create` allocated; `none` when a
`ucs_assert_always` of `ucp_listener_close_ifaces` fails. -/
def ucp_listen_on_iface (env : create_env) (worker : ucp_worker) (listener_ptr : Nat)
    (listener : ucp_listener) (addr : sockaddr) : Option listen_result :=
  if env.get_port_status ≠ UCS_OK then
    some { status := env.get_port_status, listener := listener, worker := worker,
           addr_port := addr.port, trace := [] }
  else
    let r := ucp_listen_on_iface_loop env.features_wakeup listener.worker env.tls 0
      addr.port addr.port
    let listener := { listener with ifaces := r.wifaces }
    let exit : Option ucs_status_t :=
      match r.exit with
      | some status => some status
      | none => if r.wifaces.length = 0 then some UCS_ERR_UNREACHABLE else none
    match exit with
    | none =>
      some { status := UCS_OK, listener := listener, worker := worker,
             addr_port := r.addr_port, trace := r.trace }
    | some status =>
      match ucp_listener_close_ifaces worker listener_ptr listener with
      | none => none
      | some (worker, trace) =>
        some { status := status, listener := listener, worker := worker,
               addr_port := r.addr_port, trace := r.trace ++ trace }

/-- State at the exit of the loop of `ucp_listen_on_cm`: `exit` is the status
carried by `goto destroy_listeners`, `listeners` the first `num_listeners`
entries of the array. -/
structure cm_loop_result where
  exit : Option ucs_status_t
  listeners : List Nat
  trace : List Event
  deriving DecidableEq

/-- The loop of `ucp_listen_on_cm` (lines 262-297) over the remaining connection
managers, from manager index `i` and the port `addr_port` in the local copy of
the address. The debug-only `ucs_assert(port == 0)` is not part of the
behaviour. -/
def ucp_listen_on_cm_loop : List cm_outcome → Nat → Nat → cm_loop_result
  | [], _, _ => { exit := none, listeners := [], trace := [] }
  | c :: cs, i, addr_port =>
    let ev := Event.uct_listener_create i addr_port c.create_status
    if c.create_status = UCS_ERR_INVALID_ADDR then
      let rest := ucp_listen_on_cm_loop cs (i + 1) addr_port
      { rest with trace := ev :: rest.trace }
    else if c.create_status ≠ UCS_OK then
      { exit := some c.create_status, listeners := [], trace := [ev] }
    else if c.get_port_status ≠ UCS_OK then
      { exit := some c.get_port_status, listeners := [c.uct_listener], trace := [ev] }
    else if c.query_status ≠ UCS_OK then
      { exit := some c.query_status, listeners := [c.uct_listener], trace := [ev] }
    else
      let port := addr_port
      let addr_port := if port ≠ c.listener_port then c.listener_port else addr_port
      let rest := ucp_listen_on_cm_loop cs (i + 1) addr_port
      { rest with
        listeners := c.uct_listener :: rest.listeners
        trace := ev :: rest.trace }

/-- The function `ucp_listen_on_cm` (lines 233-304); the number of connection
managers is the length of `env.cms`. `none` when the `ucs_assert_always` of
`ucp_listener_close_uct_listeners` fails. -/
def ucp_listen_on_cm (env : create_env) (worker : ucp_worker) (listener : ucp_listener)
    (addr : sockaddr) : Option listen_result :=
  let listener := { listener with cms := [] }
  let alloc_ev := Event.ucs_calloc_listeners env.listeners_alloc_ok
  if !env.listeners_alloc_ok then
    some { status := UCS_ERR_NO_MEMORY, listener := listener, worker := worker,
           addr_port := addr.port, trace := [alloc_ev] }
  else
    let r := ucp_listen_on_cm_loop env.cms 0 addr.port
    let listener := { listener with cms := r.listeners }
    match r.exit with
    | none =>
      some { status := UCS_OK, listener := listener, worker := worker,
             addr_port := addr.port, trace := alloc_ev :: r.trace }
    | some status =>
      match ucp_listener_close_uct_listeners worker listener with
      | none => none
      | some (listener, trace) =>
        some { status := status, listener := listener, worker := worker,
               addr_port := addr.port, trace := alloc_ev :: r.trace ++ trace }

/-- What `ucp_listener_create` leaves behind: the returned status, the contents
of `*listener_p`, the listener object when it is still allocated, the worker,
and the calls made. -/
structure create_result where
  status : ucs_status_t
  listener_p : Option Nat
  listener : Option ucp_listener
  worker : ucp_worker
  trace : List Event
  deriving DecidableEq

/-- The code of `ucp_listener_create` from the backend selection to the end
(lines 467-483). -/
def ucp_listener_create_backend (env : create_env) (worker : ucp_worker)
    (listener_ptr : Nat) (listener : ucp_listener) (addr : sockaddr)
    (listener_p : Option Nat) (trace : List Event) : Option create_result :=
  let res := if worker.sockaddr_is_cm_proto then ucp_listen_on_cm env worker listener addr
    else ucp_listen_on_iface env worker listener_ptr listener addr
  match res with
  | none => none
  | some r =>
    if r.status = UCS_OK then
      some { status := r.status, listener_p := some listener_ptr,
             listener := some r.listener, worker := r.worker, trace := trace ++ r.trace }
    else
      some { status := r.status, listener_p := listener_p, listener := none,
             worker := r.worker,
             trace := trace ++ r.trace ++ [Event.ucs_free listener_ptr] }

/-- Modelled from the spec: the macro `UCP_CHECK_PARAM_NON_NULL` (ucp_context.h,
not under src/) validates that a pointer is non-null ("address pointer
non-null"); this is the status it assigns before running its action when the
pointer is `NULL`. -/
def UCP_CHECK_PARAM_NON_NULL_status : ucs_status_t := UCS_ERR_INVALID_PARAM

/-- The function `ucp_listener_create` (lines 424-483). `worker_ptr` is the
address of the worker, `listener_p` the contents of `*listener_p` on entry. A
`none` pointer handed to `UCP_CHECK_PARAM_NON_NULL` takes the macro's action. -/
def ucp_listener_create (env : create_env) (worker : ucp_worker) (worker_ptr : Nat)
    (params : ucp_listener_params) (listener_p : Option Nat) : Option create_result :=
  let fail (status : ucs_status_t) (trace : List Event) : Option create_result :=
    some { status := status, listener_p := listener_p, listener := none,
           worker := worker, trace := trace }
  if !params.field_mask.UCP_LISTENER_PARAM_FIELD_SOCK_ADDR then
    fail UCS_ERR_INVALID_PARAM []
  else
    match params.sockaddr_addr with
    | none => fail UCP_CHECK_PARAM_NON_NULL_status []
    | some addr =>
      if params.field_mask.UCP_LISTENER_PARAM_FIELD_ACCEPT_HANDLER &&
          params.field_mask.UCP_LISTENER_PARAM_FIELD_CONN_HANDLER then
        fail UCS_ERR_INVALID_PARAM []
      else
        let alloc_ev := Event.ucs_calloc_listener env.listener_alloc
        match env.listener_alloc with
        | none => fail UCS_ERR_NO_MEMORY [alloc_ev]
        | some listener_ptr =>
          let listener : ucp_listener :=
            { worker := worker_ptr, accept_cb := none, conn_cb := none, arg := 0,
              ifaces := [], cms := [] }
          if params.field_mask.UCP_LISTENER_PARAM_FIELD_ACCEPT_HANDLER then
            match params.accept_handler_cb with
            | none =>
              fail UCP_CHECK_PARAM_NON_NULL_status [alloc_ev, Event.ucs_free listener_ptr]
            | some cb =>
              ucp_listener_create_backend env worker listener_ptr
                { listener with accept_cb := some cb, arg := params.accept_handler_arg }
                addr listener_p [alloc_ev]
          else if params.field_mask.UCP_LISTENER_PARAM_FIELD_CONN_HANDLER then
            match params.conn_handler_cb with
            | none =>
              fail UCP_CHECK_PARAM_NON_NULL_status [alloc_ev, Event.ucs_free listener_ptr]
            | some cb =>
              ucp_listener_create_backend env worker listener_ptr
                { listener with conn_cb := some cb, arg := params.conn_handler_arg }
                addr listener_p [alloc_ev]
          else
            ucp_listener_create_backend env worker listener_ptr listener addr listener_p
              [alloc_ev]

/-! ## Concrete inputs used below -/

/-- An endpoint that carries a full address (not pending listener association). -/
def ep_full_addr : ucp_ep :=
  { flags := { UCP_EP_FLAG_LISTENER := false, UCP_EP_FLAG_USED := false,
               UCP_EP_FLAG_CONNECT_REQ_QUEUED := false, other := 0 },
    listener := none }

/-- An endpoint pending listener association. -/
def ep_pending : ucp_ep :=
  { flags := { UCP_EP_FLAG_LISTENER := true, UCP_EP_FLAG_USED := false,
               UCP_EP_FLAG_CONNECT_REQ_QUEUED := false, other := 0 },
    listener := none }

/-- A run in which every collaborator of the accept task succeeds. -/
def env_all_ok (ep : ucp_ep) : accept_env :=
  { ep_create_status := UCS_OK, ep_ptr := 300, ep := ep,
    send_pre_request_status := UCS_OK, send_request_status := UCS_OK,
    iface_accept_status := UCS_OK }

/-- A run in which the endpoint is created and the wireup request then fails. -/
def env_wireup_fails : accept_env :=
  { ep_create_status := UCS_OK, ep_ptr := 300, ep := ep_full_addr,
    send_pre_request_status := UCS_OK, send_request_status := UCS_ERR_IO_ERROR,
    iface_accept_status := UCS_OK }

/-- An interface of worker 1 listening on the given port. -/
def wiface_on (port : Nat) : ucp_worker_iface :=
  { worker := 1, rsc_index := 0, listen_port := port, cap_cb_async := true }

/-- A listener at address 100 of worker 1, registered with accept callback 7,
owning one interface. -/
def listener_accept : ucp_listener :=
  { worker := 1, accept_cb := some 7, conn_cb := none, arg := 9,
    ifaces := [wiface_on 5000], cms := [] }

/-- A listener of worker 1 registered with connection callback 8. -/
def listener_conn : ucp_listener :=
  { worker := 1, accept_cb := none, conn_cb := some 8, arg := 9,
    ifaces := [wiface_on 5000], cms := [] }

/-- A connection request record (stored at address 200) captured for the
listener at address 100. -/
def conn_request_for_100 : ucp_conn_request :=
  { listener := 100, uct_req := 41, uct_iface := 40, client_data := [] }

/-- An interface-mode worker whose progress queue holds the deferred accept task
for the record at address 200 and one unrelated task. -/
def worker_with_pending : ucp_worker :=
  { sockaddr_is_cm_proto := false,
    progress_q := [⟨ucs_callback_t.ucp_listener_conn_request_progress, 200⟩,
                   ⟨ucs_callback_t.other 3, 100⟩] }

/-- A connection manager that creates the listener with the given handle on
the given port. -/
def cm_ok (handle port : Nat) : cm_outcome :=
  { create_status := UCS_OK, uct_listener := handle, get_port_status := UCS_OK,
    query_status := UCS_OK, listener_port := port }

/-- A connection manager for which the target address is not valid. -/
def cm_invalid_addr : cm_outcome :=
  { create_status := UCS_ERR_INVALID_ADDR, uct_listener := 0, get_port_status := UCS_OK,
    query_status := UCS_OK, listener_port := 0 }

/-- An environment with the given connection managers and transports in which
the listener is allocated at address 100. -/
def env_with (cms : List cm_outcome) (tls : List tl_outcome) (wakeup listeners_alloc_ok : Bool) :
    create_env :=
  { listener_alloc := some 100, get_port_status := UCS_OK, features_wakeup := wakeup,
    tls := tls, listeners_alloc_ok := listeners_alloc_ok, cms := cms }

/-- A worker with an empty progress queue in the given connection mode. -/
def worker_idle (cm_proto : Bool) : ucp_worker :=
  { sockaddr_is_cm_proto := cm_proto, progress_q := [] }

/-- A zero-initialised listener of worker 1 with accept callback 7. -/
def listener_fresh : ucp_listener :=
  { worker := 1, accept_cb := some 7, conn_cb := none, arg := 9, ifaces := [], cms := [] }

/-- Valid creation parameters: an address with port 0 and an accept handler. -/
def params_accept : ucp_listener_params :=
  { field_mask := { UCP_LISTENER_PARAM_FIELD_SOCK_ADDR := true,
                    UCP_LISTENER_PARAM_FIELD_ACCEPT_HANDLER := true,
                    UCP_LISTENER_PARAM_FIELD_CONN_HANDLER := false, other := 0 },
    sockaddr_addr := some { sa_family := 2, port := 0 },
    accept_handler_cb := some 7, accept_handler_arg := 9,
    conn_handler_cb := none, conn_handler_arg := 0 }

/-- The creation parameters are acceptable to `ucp_listener_create`: the address
bit is set and the address pointer is not `NULL`, at most one handler bit is
set, and a handler whose bit is set has a callback that is not `NULL`. -/
def params_valid (params : ucp_listener_params) : Prop :=
  params.field_mask.UCP_LISTENER_PARAM_FIELD_SOCK_ADDR = true ∧
  params.sockaddr_addr ≠ none ∧
  ¬ (params.field_mask.UCP_LISTENER_PARAM_FIELD_ACCEPT_HANDLER = true ∧
     params.field_mask.UCP_LISTENER_PARAM_FIELD_CONN_HANDLER = true) ∧
  (params.field_mask.UCP_LISTENER_PARAM_FIELD_ACCEPT_HANDLER = true →
    params.accept_handler_cb ≠ none) ∧
  (params.field_mask.UCP_LISTENER_PARAM_FIELD_ACCEPT_HANDLER = false →
    params.field_mask.UCP_LISTENER_PARAM_FIELD_CONN_HANDLER = true →
    params.conn_handler_cb ≠ none)

instance (params : ucp_listener_params) : Decidable (params_valid params) := by
  unfold params_valid
  infer_instance

/-- The calls of `ucp_worker_iface_open` in a trace, in order: the port written
in the address handed to the call, and the transport's answers. -/
def iface_open_calls (trace : List Event) : List (Nat × tl_outcome) :=
  trace.filterMap (fun e =>
    match e with
    | Event.ucp_worker_iface_open _ port r => some (port, r)
    | _ => none)

/-- The slots of the interfaces that a trace opened successfully. -/
def opened_slots (trace : List Event) : List Nat :=
  trace.filterMap (fun e =>
    match e with
    | Event.ucp_worker_iface_open slot _ r =>
      if r.open_status = UCS_OK then some slot else none
    | _ => none)

/-- The slots of the interfaces that a trace cleaned up. -/
def cleaned_slots (trace : List Event) : List Nat :=
  trace.filterMap (fun e =>
    match e with
    | Event.ucp_worker_iface_cleanup slot => some slot
    | _ => none)

/-- The relation between two consecutive open calls that the loop of
`ucp_listen_on_iface` maintains: the earlier interface was opened and
initialised, and the later call asks for the listen port the earlier interface
reported when that port is not 0, and otherwise for the port the earlier call
asked for. -/
def port_follows (a b : Nat × tl_outcome) : Prop :=
  a.2.open_status = UCS_OK ∧ a.2.init_status = UCS_OK ∧
  b.1 = if a.2.listen_port ≠ 0 then a.2.listen_port else a.1

/-- Three reachable transports whose interfaces report the listen ports 5000,
6000 and 7000, in an interface-mode environment without wake-up. -/
def env_three_ports : create_env :=
  { listener_alloc := some 100, get_port_status := UCS_OK, features_wakeup := false,
    tls := [{ tl_id := 0, accessible := true, realloc_ok := true, set_port_status := UCS_OK,
              open_status := UCS_OK, init_status := UCS_OK, cap_cb_async := true,
              listen_port := 5000 },
            { tl_id := 1, accessible := true, realloc_ok := true, set_port_status := UCS_OK,
              open_status := UCS_OK, init_status := UCS_OK, cap_cb_async := true,
              listen_port := 6000 },
            { tl_id := 2, accessible := true, realloc_ok := true, set_port_status := UCS_OK,
              open_status := UCS_OK, init_status := UCS_OK, cap_cb_async := true,
              listen_port := 7000 }],
    listeners_alloc_ok := true, cms := [] }

/-- Modelled from the spec: the contract of opening a listening interface
(`ucp_worker_iface_open` and the transports behind it are not under src/). An
interface that was opened on an address with a port other than 0 listens on that
port and reports it; an interface that was opened on port 0 ("any") reports the
port assigned to it, which is not 0. The pair is one open call: the port asked
for and the transport's answers. -/
def open_contract (c : Nat × tl_outcome) : Prop :=
  c.2.open_status = UCS_OK →
    (c.1 ≠ 0 → c.2.listen_port = c.1) ∧ c.2.listen_port ≠ 0

instance (c : Nat × tl_outcome) : Decidable (open_contract c) := by
  unfold open_contract
  infer_instance

/-- A reachable transport that opens and initialises an interface on the port
it is asked for, or on port 5000 when asked for port 0. The open call of the
loop asks transport 0 for port 0 and the later ones for port 5000. -/
def tl_on_5000 (tl_id : Nat) : tl_outcome :=
  { tl_id := tl_id, accessible := true, realloc_ok := true, set_port_status := UCS_OK,
    open_status := UCS_OK, init_status := UCS_OK, cap_cb_async := true,
    listen_port := 5000 }

/-- Three reachable transports in an interface-mode environment without wake-up;
the first interface is assigned port 5000 and the others are opened on it. -/
def env_one_port : create_env :=
  { listener_alloc := some 100, get_port_status := UCS_OK, features_wakeup := false,
    tls := [tl_on_5000 0, tl_on_5000 1, tl_on_5000 2],
    listeners_alloc_ok := true, cms := [] }

/-- The open calls made for `env_one_port` when the requested port is 0. -/
def calls_one_port : List (Nat × tl_outcome) :=
  [(0, tl_on_5000 0), (5000, tl_on_5000 1), (5000, tl_on_5000 2)]

/-- Two reachable transports under the wake-up feature: both interfaces open
and initialise, the second lacks the asynchronous-callback capability. -/
def env_second_not_async : create_env :=
  { listener_alloc := some 100, get_port_status := UCS_OK, features_wakeup := true,
    tls := [{ tl_id := 0, accessible := true, realloc_ok := true, set_port_status := UCS_OK,
              open_status := UCS_OK, init_status := UCS_OK, cap_cb_async := true,
              listen_port := 5000 },
            { tl_id := 1, accessible := true, realloc_ok := true, set_port_status := UCS_OK,
              open_status := UCS_OK, init_status := UCS_OK, cap_cb_async := false,
              listen_port := 5000 }],
    listeners_alloc_ok := true, cms := [] }

/-! ## The deferred accept task: theorems -/

/-- Every exit of the label `out:` returns 1 and ends by freeing the record. -/
theorem conn_request_progress_out_ret (arg : Nat) (cr : ucp_conn_request)
    (l : ucp_listener) (st : ucs_status_t) (tr : List Event) (ep : Option ucp_ep) :
    (conn_request_progress_out arg cr l st tr ep).ret = 1 := rfl

/-- The task never writes to the listener. -/
theorem conn_request_progress_listener (env : accept_env) (arg : Nat)
    (cr : ucp_conn_request) (l : ucp_listener) :
    (ucp_listener_conn_request_progress env arg cr l).listener = l := by
  unfold ucp_listener_conn_request_progress conn_request_progress_out
  cases l.conn_cb <;> cases l.accept_cb <;> simp only [] <;> split_ifs <;> rfl

/-- When the wireup send fails after the endpoint was created, on a listener
without connection callback, the task rejects once, calls no accept callback and
does not destroy the endpoint. -/
theorem conn_request_progress_wireup_failure (env : accept_env) (arg : Nat)
    (cr : ucp_conn_request) (l : ucp_listener) (hconn : l.conn_cb = none)
    (hcreate : env.ep_create_status = UCS_OK)
    (hsend : (if env.ep.flags.UCP_EP_FLAG_LISTENER then env.send_pre_request_status
      else env.send_request_status) ≠ UCS_OK) :
    (ucp_listener_conn_request_progress env arg cr l).trace =
      [Event.ucp_ep_create_accept UCS_OK,
       (if env.ep.flags.UCP_EP_FLAG_LISTENER
        then Event.ucp_wireup_send_pre_request env.ep_ptr
        else Event.ucp_wireup_send_request env.ep_ptr),
       Event.uct_iface_reject cr.uct_iface cr.uct_req,
       Event.ucs_free arg] ∧
    (ucp_listener_conn_request_progress env arg cr l).ep = some env.ep := by
  unfold ucp_listener_conn_request_progress conn_request_progress_out
  simp only [hconn, hcreate]
  simp [hsend]

/-- When the transport accept fails, the sibling path does destroy the endpoint
before rejecting. -/
theorem conn_request_progress_accept_failure (env : accept_env) (arg : Nat)
    (cr : ucp_conn_request) (l : ucp_listener) (hconn : l.conn_cb = none)
    (hcreate : env.ep_create_status = UCS_OK)
    (hsend : (if env.ep.flags.UCP_EP_FLAG_LISTENER then env.send_pre_request_status
      else env.send_request_status) = UCS_OK)
    (hacc : env.iface_accept_status ≠ UCS_OK) :
    Event.ucp_ep_destroy_internal env.ep_ptr ∈
      (ucp_listener_conn_request_progress env arg cr l).trace ∧
    (ucp_listener_conn_request_progress env arg cr l).ep = none := by
  unfold ucp_listener_conn_request_progress conn_request_progress_out
  simp only [hconn, hcreate]
  simp [hsend, hacc]

/-- Claim C2, evaluated on the code: with the endpoint created and the wireup
request failing, the task rejects the raw request once, calls no accept callback
and leaves the listener alone, but it never calls `ucp_ep_destroy_internal`: the
endpoint is still there at return. -/
theorem C2_wireup_failure_leaves_endpoint :
    (ucp_listener_conn_request_progress env_wireup_fails 200 conn_request_for_100
        listener_accept).trace =
      [Event.ucp_ep_create_accept UCS_OK, Event.ucp_wireup_send_request 300,
       Event.uct_iface_reject 40 41, Event.ucs_free 200] ∧
    Event.ucp_ep_destroy_internal 300 ∉
      (ucp_listener_conn_request_progress env_wireup_fails 200 conn_request_for_100
        listener_accept).trace ∧
    (ucp_listener_conn_request_progress env_wireup_fails 200 conn_request_for_100
        listener_accept).ep = some ep_full_addr ∧
    (ucp_listener_conn_request_progress env_wireup_fails 200 conn_request_for_100
        listener_accept).listener = listener_accept := by
  decide

/-- Claim C3 as stated fails: on a listener registered with a connection
callback the task hands the record to the callback and returns without freeing
it. -/
theorem C3_conn_cb_does_not_free :
    ¬ ∀ (env : accept_env) (arg : Nat) (cr : ucp_conn_request) (l : ucp_listener),
      (ucp_listener_conn_request_progress env arg cr l).trace.count (Event.ucs_free arg) = 1 ∧
      (ucp_listener_conn_request_progress env arg cr l).ret = 1 := by
  intro h
  have h1 := (h (env_all_ok ep_full_addr) 200 conn_request_for_100 listener_conn).1
  revert h1
  decide

/-- Claim C3, amended: every run of the deferred accept task returns 1; on a
listener without connection callback, whatever the outcome of endpoint creation,
wireup send and transport accept, the record is freed exactly once, as the last
action of the run; on a listener with a connection callback the run consists of
the single callback call on the record and frees nothing. -/
theorem C3_record_freed_once (env : accept_env) (arg : Nat) (cr : ucp_conn_request)
    (l : ucp_listener) :
    (ucp_listener_conn_request_progress env arg cr l).ret = 1 ∧
    (l.conn_cb = none →
      (ucp_listener_conn_request_progress env arg cr l).trace.count (Event.ucs_free arg) = 1 ∧
      (ucp_listener_conn_request_progress env arg cr l).trace.getLast? =
        some (Event.ucs_free arg)) ∧
    (∀ cb, l.conn_cb = some cb →
      (ucp_listener_conn_request_progress env arg cr l).trace =
        [Event.conn_cb cb arg l.arg]) := by
  refine ⟨?_, ?_, ?_⟩
  · unfold ucp_listener_conn_request_progress conn_request_progress_out
    cases l.conn_cb <;> cases l.accept_cb <;> simp only [] <;> split_ifs <;> rfl
  · intro hconn
    unfold ucp_listener_conn_request_progress conn_request_progress_out
    simp only [hconn]
    cases l.accept_cb <;> simp only [] <;> split_ifs <;>
      simp [List.count_cons, List.getLast?_append]
  · intro cb hcb
    unfold ucp_listener_conn_request_progress
    simp [hcb]

/-- Witness for C3. -/
theorem C3_record_freed_once_witness :
    (ucp_listener_conn_request_progress env_wireup_fails 200 conn_request_for_100
        listener_accept).trace.count (Event.ucs_free 200) = 1 ∧
    (ucp_listener_conn_request_progress (env_all_ok ep_full_addr) 200 conn_request_for_100
        listener_conn).trace = [Event.conn_cb 8 200 9] :=
  ⟨((C3_record_freed_once env_wireup_fails 200 conn_request_for_100 listener_accept).2.1
      (by decide)).1,
   (C3_record_freed_once (env_all_ok ep_full_addr) 200 conn_request_for_100
      listener_conn).2.2 8 (by decide)⟩

/-- Claim C8: on a listener registered with an accept callback (and hence
without connection callback), when endpoint creation, the wireup send and the
transport accept all succeed: an endpoint pending listener association gets the
listener stored, keeps its flags (it is not marked in-use) and no accept
callback is called; any other endpoint is marked in-use and the accept callback
is called exactly once, with that endpoint and the listener's user argument. In
both cases the transport's reject is not called. -/
theorem C8_accept_success (env : accept_env) (arg : Nat) (cr : ucp_conn_request)
    (l : ucp_listener) (cb : Nat) (hacc : l.accept_cb = some cb)
    (hconn : l.conn_cb = none) (hcreate : env.ep_create_status = UCS_OK)
    (hsend : (if env.ep.flags.UCP_EP_FLAG_LISTENER then env.send_pre_request_status
      else env.send_request_status) = UCS_OK)
    (haccept : env.iface_accept_status = UCS_OK) :
    (env.ep.flags.UCP_EP_FLAG_LISTENER = true →
      (ucp_listener_conn_request_progress env arg cr l).ep =
        some { env.ep with listener := some cr.listener } ∧
      (ucp_listener_conn_request_progress env arg cr l).trace =
        [Event.ucp_ep_create_accept UCS_OK, Event.ucp_wireup_send_pre_request env.ep_ptr,
         Event.uct_iface_accept cr.uct_iface cr.uct_req, Event.ucs_free arg]) ∧
    (env.ep.flags.UCP_EP_FLAG_LISTENER = false →
      (ucp_listener_conn_request_progress env arg cr l).ep =
        some { env.ep with flags := { env.ep.flags with UCP_EP_FLAG_USED := true } } ∧
      (ucp_listener_conn_request_progress env arg cr l).trace =
        [Event.ucp_ep_create_accept UCS_OK, Event.ucp_wireup_send_request env.ep_ptr,
         Event.uct_iface_accept cr.uct_iface cr.uct_req,
         Event.accept_cb cb env.ep_ptr
           { env.ep with flags := { env.ep.flags with UCP_EP_FLAG_USED := true } } l.arg,
         Event.ucs_free arg]) ∧
    (∀ i q, Event.uct_iface_reject i q ∉
      (ucp_listener_conn_request_progress env arg cr l).trace) := by
  unfold ucp_listener_conn_request_progress conn_request_progress_out
  simp only [hconn, hcreate, hacc, haccept]
  cases hl : env.ep.flags.UCP_EP_FLAG_LISTENER <;> simp [hl] at hsend ⊢ <;> simp [hsend]

/-- Witness for C8. -/
theorem C8_accept_success_witness :
    (ucp_listener_conn_request_progress (env_all_ok ep_pending) 200 conn_request_for_100
        listener_accept).ep = some { ep_pending with listener := some 100 } ∧
    (ucp_listener_conn_request_progress (env_all_ok ep_full_addr) 200 conn_request_for_100
        listener_accept).trace =
      [Event.ucp_ep_create_accept UCS_OK, Event.ucp_wireup_send_request 300,
       Event.uct_iface_accept 40 41,
       Event.accept_cb 7 300
         { ep_full_addr with flags := { ep_full_addr.flags with UCP_EP_FLAG_USED := true } } 9,
       Event.ucs_free 200] :=
  ⟨((C8_accept_success (env_all_ok ep_pending) 200 conn_request_for_100 listener_accept 7
      (by decide) (by decide) (by decide) (by decide) (by decide)).1 (by decide)).1,
   ((C8_accept_success (env_all_ok ep_full_addr) 200 conn_request_for_100 listener_accept 7
      (by decide) (by decide) (by decide) (by decide) (by decide)).2.1 (by decide)).2⟩

/-! ## Teardown: theorems -/

/-- The filter never accepts a deferred accept task whose record lives at an
address other than the listener's. -/
theorem ucs_callbackq_remove_if_filter_id (q : List ucs_callbackq_elem) (listener_ptr : Nat)
    (hq : ∀ e ∈ q, e.cb = ucs_callback_t.ucp_listener_conn_request_progress →
      e.arg ≠ listener_ptr) :
    ucs_callbackq_remove_if q ucp_listener_remove_filter listener_ptr = q := by
  unfold ucs_callbackq_remove_if
  rw [List.filter_eq_self]
  intro e he
  unfold ucp_listener_remove_filter
  by_cases hcb : e.cb = ucs_callback_t.ucp_listener_conn_request_progress
  · simp [hcb, hq e he hcb]
  · simp [hcb]

/-- The closing loop leaves such a queue as it is. -/
theorem ucp_listener_close_ifaces_loop_queue (listener_ptr lw : Nat)
    (ws : List ucp_worker_iface) (i : Nat) (q q' : List ucs_callbackq_elem)
    (tr : List Event)
    (hq : ∀ e ∈ q, e.cb = ucs_callback_t.ucp_listener_conn_request_progress →
      e.arg ≠ listener_ptr)
    (h : ucp_listener_close_ifaces_loop listener_ptr lw ws i q = some (q', tr)) :
    q' = q := by
  induction ws generalizing i tr with
  | nil =>
    simp only [ucp_listener_close_ifaces_loop, Option.some.injEq, Prod.mk.injEq] at h
    exact h.1.symm
  | cons w ws ih =>
    unfold ucp_listener_close_ifaces_loop at h
    rw [ucs_callbackq_remove_if_filter_id q listener_ptr hq] at h
    split_ifs at h
    cases hrec : ucp_listener_close_ifaces_loop listener_ptr lw ws (i + 1) q with
    | none => simp [hrec] at h
    | some r =>
      obtain ⟨q1, tr1⟩ := r
      simp only [hrec, Option.some.injEq, Prod.mk.injEq] at h
      obtain ⟨rfl, _⟩ := h
      exact ih (i + 1) tr1 hrec

/-- Whenever every queued deferred accept task holds a record whose address
differs from the listener's (as it does for two distinct live allocations),
`ucp_listener_destroy` removes nothing from the progress queue. -/
theorem ucp_listener_destroy_queue (worker worker' : ucp_worker) (listener_ptr : Nat)
    (l : ucp_listener) (tr : List Event)
    (hq : ∀ e ∈ worker.progress_q,
      e.cb = ucs_callback_t.ucp_listener_conn_request_progress → e.arg ≠ listener_ptr)
    (h : ucp_listener_destroy worker listener_ptr l = some (worker', tr)) :
    worker'.progress_q = worker.progress_q := by
  unfold ucp_listener_destroy at h
  split_ifs at h with hcm
  · cases hc : ucp_listener_close_uct_listeners worker l with
    | none => simp [hc] at h
    | some r =>
      simp only [hc, Option.some.injEq, Prod.mk.injEq] at h
      rw [← h.1]
  · unfold ucp_listener_close_ifaces at h
    simp only [hcm] at h
    cases hloop : ucp_listener_close_ifaces_loop listener_ptr l.worker l.ifaces 0
        worker.progress_q with
    | none => simp [hloop] at h
    | some r =>
      obtain ⟨q1, tr1⟩ := r
      simp only [hloop, Bool.false_eq_true, if_false, Option.some.injEq, Prod.mk.injEq] at h
      rw [← h.1]
      exact ucp_listener_close_ifaces_loop_queue listener_ptr l.worker l.ifaces 0
        worker.progress_q q1 tr1 hq hloop

/-- Claim C1, evaluated on the code: destroying the interface-backend listener
at address 100 while the queue holds the deferred accept task of a record (at
address 200) captured for that listener leaves the queue as it was; the task
for listener 100 is still pending after the destroy. -/
theorem C1_destroy_keeps_pending_task :
    ucp_listener_destroy worker_with_pending 100 listener_accept =
      some (worker_with_pending,
        [Event.ucp_worker_iface_cleanup 0, Event.ucs_free_wifaces, Event.ucs_free 100]) ∧
    pending_conn_requests [(200, conn_request_for_100)] 100
        worker_with_pending.progress_q =
      [⟨ucs_callback_t.ucp_listener_conn_request_progress, 200⟩] := by
  decide

/-! ## Query: theorems -/

/-- Claim C7: on a listener with at least one interface the query returns a
result; the status is IOError exactly when some owned interface reports a listen
port other than the first interface's, and OK otherwise; on OK with the port
field requested, the port of the attributes becomes the common port and nothing
else changes; on IOError, and when the port field is not requested, the
attributes are left as they were. -/
theorem C7_query (l : ucp_listener) (attr : ucp_listener_attr) (w : ucp_worker_iface)
    (ws : List ucp_worker_iface) (h : l.ifaces = w :: ws) :
    ∃ st attr', ucp_listener_query l attr = some (st, attr') ∧
      (st = UCS_ERR_IO_ERROR ↔ ∃ x ∈ l.ifaces, x.listen_port ≠ w.listen_port) ∧
      (st ≠ UCS_ERR_IO_ERROR → st = UCS_OK ∧ ∀ x ∈ l.ifaces, x.listen_port = w.listen_port) ∧
      (st = UCS_OK → attr.field_mask.UCP_LISTENER_ATTR_FIELD_PORT = true →
        attr' = { attr with port := w.listen_port }) ∧
      (st = UCS_ERR_IO_ERROR ∨ attr.field_mask.UCP_LISTENER_ATTR_FIELD_PORT = false →
        attr' = attr) := by
  unfold ucp_listener_query
  simp only [h]
  by_cases hany : ws.any (fun x => decide (w.listen_port ≠ x.listen_port)) = true
  · refine ⟨UCS_ERR_IO_ERROR, attr, by rw [if_pos hany], ?_, by simp, by simp, by simp⟩
    simp only [true_iff]
    rw [List.any_eq_true] at hany
    obtain ⟨x, hx, hne⟩ := hany
    exact ⟨x, List.mem_cons_of_mem _ hx, fun hh => (of_decide_eq_true hne) hh.symm⟩
  · have hall : ∀ x ∈ w :: ws, x.listen_port = w.listen_port := by
      intro x hx
      rcases List.mem_cons.1 hx with rfl | hx
      · rfl
      · by_contra hne
        exact hany (List.any_eq_true.2 ⟨x, hx, decide_eq_true (fun hh => hne hh.symm)⟩)
    cases hp : attr.field_mask.UCP_LISTENER_ATTR_FIELD_PORT
    · refine ⟨UCS_OK, attr, by rw [if_neg hany]; simp, ?_, fun _ => ⟨rfl, hall⟩,
        by simp, by simp⟩
      simp only [false_iff, reduceCtorEq]
      rintro ⟨x, hx, hne⟩
      exact hne (hall x hx)
    · refine ⟨UCS_OK, { attr with port := w.listen_port }, by rw [if_neg hany]; simp, ?_,
        fun _ => ⟨rfl, hall⟩, by simp, by simp⟩
      simp only [false_iff, reduceCtorEq]
      rintro ⟨x, hx, hne⟩
      exact hne (hall x hx)

/-- Witness for C7. -/
theorem C7_query_witness :
    ∃ st attr',
      ucp_listener_query { listener_accept with ifaces := [wiface_on 5000, wiface_on 5001] }
        ⟨⟨true, 0⟩, 0⟩ = some (st, attr') ∧
      (st = UCS_ERR_IO_ERROR ↔
        ∃ x ∈ [wiface_on 5000, wiface_on 5001], x.listen_port ≠ (wiface_on 5000).listen_port) ∧
      (st ≠ UCS_ERR_IO_ERROR →
        st = UCS_OK ∧
        ∀ x ∈ [wiface_on 5000, wiface_on 5001], x.listen_port = (wiface_on 5000).listen_port) ∧
      (st = UCS_OK → true = true →
        attr' = { (⟨⟨true, 0⟩, 0⟩ : ucp_listener_attr) with
          port := (wiface_on 5000).listen_port }) ∧
      (st = UCS_ERR_IO_ERROR ∨ true = false → attr' = ⟨⟨true, 0⟩, 0⟩) :=
  C7_query { listener_accept with ifaces := [wiface_on 5000, wiface_on 5001] }
    ⟨⟨true, 0⟩, 0⟩ (wiface_on 5000) [wiface_on 5001] rfl

/-! ## Creation: theorems -/

/-- Claim C9: with the address bit and both handler bits in the field mask,
`ucp_listener_create` returns InvalidParam, makes no call at all (no listener
allocation, no interface or connection-manager listener opened) and leaves
`*listener_p` and the worker as they were. -/
theorem C9_both_handlers (env : create_env) (worker : ucp_worker) (worker_ptr : Nat)
    (params : ucp_listener_params) (listener_p : Option Nat)
    (haddr : params.field_mask.UCP_LISTENER_PARAM_FIELD_SOCK_ADDR = true)
    (hacc : params.field_mask.UCP_LISTENER_PARAM_FIELD_ACCEPT_HANDLER = true)
    (hconn : params.field_mask.UCP_LISTENER_PARAM_FIELD_CONN_HANDLER = true) :
    ucp_listener_create env worker worker_ptr params listener_p =
      some { status := UCS_ERR_INVALID_PARAM, listener_p := listener_p, listener := none,
             worker := worker, trace := [] } := by
  unfold ucp_listener_create
  simp only [haddr, hacc, hconn]
  cases params.sockaddr_addr <;> simp [UCP_CHECK_PARAM_NON_NULL_status]

/-! ## The connection-manager backend: theorems -/

/-- When every manager answers InvalidAddr, or answers OK with successful port
queries, the loop runs to its end and stores exactly the listeners of the
managers that answered OK, in manager order. -/
theorem ucp_listen_on_cm_loop_dense (cs : List cm_outcome) (i addr_port : Nat)
    (h : ∀ c ∈ cs, c.create_status = UCS_ERR_INVALID_ADDR ∨
      (c.create_status = UCS_OK ∧ c.get_port_status = UCS_OK ∧ c.query_status = UCS_OK)) :
    (ucp_listen_on_cm_loop cs i addr_port).exit = none ∧
    (ucp_listen_on_cm_loop cs i addr_port).listeners =
      (cs.filter (fun c => decide (c.create_status = UCS_OK))).map (fun c => c.uct_listener) := by
  induction cs generalizing i addr_port with
  | nil => exact ⟨rfl, rfl⟩
  | cons c cs ih =>
    have hcs : ∀ c' ∈ cs, c'.create_status = UCS_ERR_INVALID_ADDR ∨
        (c'.create_status = UCS_OK ∧ c'.get_port_status = UCS_OK ∧
          c'.query_status = UCS_OK) :=
      fun c' hc' => h c' (List.mem_cons_of_mem c hc')
    unfold ucp_listen_on_cm_loop
    rcases h c (List.mem_cons_self c cs) with hinv | ⟨hok, hport, hquery⟩
    · simp only [hinv, if_true]
      have := ih (i + 1) addr_port hcs
      simp [this.1, this.2, List.filter_cons, hinv]
    · simp only [hok, hport, hquery, reduceCtorEq, if_false, ne_eq, not_true_eq_false]
      have := ih (i + 1) (if addr_port = c.listener_port then addr_port else c.listener_port) hcs
      simp [this.1, this.2, List.filter_cons, hok]

/-- Claim C6 as stated fails: with one manager that would answer OK, a failed
allocation of the listeners array makes `ucp_listen_on_cm` return NoMemory. -/
theorem C6_listeners_alloc_failure :
    ¬ ∀ (env : create_env) (worker : ucp_worker) (l : ucp_listener) (addr : sockaddr),
      (∀ c ∈ env.cms, (c.create_status = UCS_OK ∨ c.create_status = UCS_ERR_INVALID_ADDR) ∧
        c.get_port_status = UCS_OK ∧ c.query_status = UCS_OK) →
      ∃ r, ucp_listen_on_cm env worker l addr = some r ∧ r.status = UCS_OK := by
  intro h
  obtain ⟨r, hr, hst⟩ := h (env_with [cm_ok 11 5000] [] false false) (worker_idle true)
    listener_fresh ⟨2, 0⟩ (by decide)
  have hr' : ucp_listen_on_cm (env_with [cm_ok 11 5000] [] false false) (worker_idle true)
      listener_fresh ⟨2, 0⟩ =
      some { status := UCS_ERR_NO_MEMORY, listener := listener_fresh,
             worker := worker_idle true, addr_port := 0,
             trace := [Event.ucs_calloc_listeners false] } := by decide
  rw [hr'] at hr
  cases hr
  cases hst

/-- Claim C6, amended: in `ucp_listen_on_cm`, when the listeners array is
allocated, every listener-create attempt answers OK or InvalidAddr and the port
queries succeed, the call returns OK, the number of listeners is the number of
managers that answered OK, and the listeners stored are exactly those managers'
listeners, densely and in manager order. -/
theorem C6_listen_on_cm_dense (env : create_env) (worker : ucp_worker) (l : ucp_listener)
    (addr : sockaddr) (halloc : env.listeners_alloc_ok = true)
    (h : ∀ c ∈ env.cms, (c.create_status = UCS_OK ∨ c.create_status = UCS_ERR_INVALID_ADDR) ∧
      c.get_port_status = UCS_OK ∧ c.query_status = UCS_OK) :
    ∃ r, ucp_listen_on_cm env worker l addr = some r ∧ r.status = UCS_OK ∧
      r.listener.cms.length = env.cms.countP (fun c => decide (c.create_status = UCS_OK)) ∧
      r.listener.cms =
        (env.cms.filter (fun c => decide (c.create_status = UCS_OK))).map
          (fun c => c.uct_listener) := by
  have hloop := ucp_listen_on_cm_loop_dense env.cms 0 addr.port (fun c hc => by
    rcases (h c hc).1 with hok | hinv
    · exact Or.inr ⟨hok, (h c hc).2⟩
    · exact Or.inl hinv)
  unfold ucp_listen_on_cm
  simp only [halloc, hloop.1, hloop.2]
  refine ⟨_, rfl, rfl, ?_, rfl⟩
  simp [List.countP_eq_length_filter]

/-- Witness for C6: three managers, the second answering InvalidAddr, give two
listeners, those of the first and the third. -/
theorem C6_listen_on_cm_dense_witness :
    ∃ r, ucp_listen_on_cm
        (env_with [cm_ok 11 5000, cm_invalid_addr, cm_ok 13 5000] [] false true)
        (worker_idle true) listener_fresh ⟨2, 0⟩ = some r ∧ r.status = UCS_OK ∧
      r.listener.cms.length =
        [cm_ok 11 5000, cm_invalid_addr, cm_ok 13 5000].countP
          (fun c => decide (c.create_status = UCS_OK)) ∧
      r.listener.cms =
        ([cm_ok 11 5000, cm_invalid_addr, cm_ok 13 5000].filter
          (fun c => decide (c.create_status = UCS_OK))).map (fun c => c.uct_listener) :=
  C6_listen_on_cm_dense
    (env_with [cm_ok 11 5000, cm_invalid_addr, cm_ok 13 5000] [] false true)
    (worker_idle true) listener_fresh ⟨2, 0⟩ rfl (by decide)

/-- With the listeners array allocated and every manager answering InvalidAddr
(or no manager at all), `ucp_listen_on_cm` returns OK and stores no listener. -/
theorem ucp_listen_on_cm_all_invalid (env : create_env) (worker : ucp_worker)
    (l : ucp_listener) (addr : sockaddr) (halloc : env.listeners_alloc_ok = true)
    (hinv : ∀ c ∈ env.cms, c.create_status = UCS_ERR_INVALID_ADDR) :
    ∃ r, ucp_listen_on_cm env worker l addr = some r ∧ r.status = UCS_OK ∧
      r.listener = { l with cms := [] } ∧ r.worker = worker ∧
      ∀ h, Event.uct_listener_destroy h ∉ r.trace := by
  have hloop := ucp_listen_on_cm_loop_dense env.cms 0 addr.port
    (fun c hc => Or.inl (hinv c hc))
  have hnil : (env.cms.filter (fun c => decide (c.create_status = UCS_OK))) = [] := by
    rw [List.filter_eq_nil_iff]
    intro c hc
    simp [hinv c hc]
  have htrace : ∀ (cs : List cm_outcome) (i p : Nat) (h : Nat),
      Event.uct_listener_destroy h ∉ (ucp_listen_on_cm_loop cs i p).trace := by
    intro cs
    induction cs with
    | nil => intro i p h; simp [ucp_listen_on_cm_loop]
    | cons c cs ih =>
      intro i p h
      unfold ucp_listen_on_cm_loop
      simp only []
      split_ifs <;> simp [ih]
  unfold ucp_listen_on_cm
  simp only [halloc, hloop.1, hloop.2, hnil]
  refine ⟨_, rfl, rfl, rfl, rfl, ?_⟩
  intro h
  simp [htrace]

/-- Claim C10 as stated fails: with every manager answering InvalidAddr, a
failed allocation of the listeners array makes both `ucp_listen_on_cm` and
`ucp_listener_create` return NoMemory. -/
theorem C10_listeners_alloc_failure :
    (∀ c ∈ (env_with [cm_invalid_addr] [] false false).cms,
      c.create_status = UCS_ERR_INVALID_ADDR) ∧
    (ucp_listen_on_cm (env_with [cm_invalid_addr] [] false false) (worker_idle true)
      listener_fresh ⟨2, 0⟩).map (fun r => r.status) = some UCS_ERR_NO_MEMORY ∧
    (ucp_listener_create (env_with [cm_invalid_addr] [] false false) (worker_idle true) 1
      params_accept none).map (fun r => (r.status, r.listener_p)) =
      some (UCS_ERR_NO_MEMORY, none) := by
  decide

/-- Claim C10, amended: on the connection-manager backend, when the listeners
array is allocated and every connection manager answers InvalidAddr for the
target address (or the worker has no connection manager), `ucp_listen_on_cm`
returns OK with no listener stored; and `ucp_listener_create`, called with valid
parameters and with the listener object allocated, then succeeds and returns a
listener that owns no backend resource, so it does not fail with Unreachable. -/
theorem C10_cm_backend_no_listener (env : create_env) (worker : ucp_worker)
    (halloc : env.listeners_alloc_ok = true)
    (hinv : ∀ c ∈ env.cms, c.create_status = UCS_ERR_INVALID_ADDR) :
    (∀ (l : ucp_listener) (addr : sockaddr),
      ∃ r, ucp_listen_on_cm env worker l addr = some r ∧ r.status = UCS_OK ∧
        r.listener.cms = []) ∧
    (∀ (worker_ptr : Nat) (params : ucp_listener_params) (listener_p : Option Nat)
        (ptr : Nat),
      worker.sockaddr_is_cm_proto = true → params_valid params →
      env.listener_alloc = some ptr →
      ∃ r l, ucp_listener_create env worker worker_ptr params listener_p = some r ∧
        r.status = UCS_OK ∧ r.listener_p = some ptr ∧ r.listener = some l ∧
        l.cms = [] ∧ l.ifaces = [] ∧ ∀ h, Event.uct_listener_destroy h ∉ r.trace) := by
  constructor
  · intro l addr
    obtain ⟨r, hr, hst, hl, _, _⟩ := ucp_listen_on_cm_all_invalid env worker l addr halloc hinv
    exact ⟨r, hr, hst, by rw [hl]⟩
  · intro worker_ptr params listener_p ptr hcm hvalid hptr
    obtain ⟨haddr, hnonnull, hboth, hacc, hconn⟩ := hvalid
    have hbackend : ∀ (l : ucp_listener), l.ifaces = [] →
        ∃ r l', ucp_listener_create_backend env worker ptr l
            (match params.sockaddr_addr with | some a => a | none => ⟨0, 0⟩) listener_p
            [Event.ucs_calloc_listener (some ptr)] = some r ∧
          r.status = UCS_OK ∧ r.listener_p = some ptr ∧ r.listener = some l' ∧
          l'.cms = [] ∧ l'.ifaces = [] ∧ ∀ h, Event.uct_listener_destroy h ∉ r.trace := by
      intro l hl
      obtain ⟨r, hr, hst, hl', _, htr⟩ := ucp_listen_on_cm_all_invalid env worker l
        (match params.sockaddr_addr with | some a => a | none => ⟨0, 0⟩) halloc hinv
      unfold ucp_listener_create_backend
      simp only [hcm, if_true, hr, hst]
      refine ⟨_, r.listener, rfl, rfl, rfl, rfl, by rw [hl'], by rw [hl']; exact hl, ?_⟩
      intro h
      simp [htr]
    unfold ucp_listener_create
    simp only [haddr, hptr]
    cases haddr' : params.sockaddr_addr with
    | none => exact absurd haddr' hnonnull
    | some addr =>
      simp only [haddr'] at hbackend
      cases ha : params.field_mask.UCP_LISTENER_PARAM_FIELD_ACCEPT_HANDLER
      · cases hc : params.field_mask.UCP_LISTENER_PARAM_FIELD_CONN_HANDLER
        · simpa using hbackend _ rfl
        · cases hcb : params.conn_handler_cb with
          | none => exact absurd hcb (hconn ha hc)
          | some cb => simpa using hbackend _ rfl
      · cases hc : params.field_mask.UCP_LISTENER_PARAM_FIELD_CONN_HANDLER
        · cases hcb : params.accept_handler_cb with
          | none => exact absurd hcb (hacc ha)
          | some cb => simpa using hbackend _ rfl
        · exact absurd ⟨ha, hc⟩ hboth

/-- Witness for C10: a worker in connection-manager mode whose only manager
answers InvalidAddr. -/
theorem C10_cm_backend_no_listener_witness :
    ∃ r l, ucp_listener_create (env_with [cm_invalid_addr] [] false true) (worker_idle true)
        1 params_accept none = some r ∧
      r.status = UCS_OK ∧ r.listener_p = some 100 ∧ r.listener = some l ∧
      l.cms = [] ∧ l.ifaces = [] ∧ ∀ h, Event.uct_listener_destroy h ∉ r.trace :=
  (C10_cm_backend_no_listener (env_with [cm_invalid_addr] [] false true) (worker_idle true)
    rfl (by decide)).2 1 params_accept none 100 rfl (by decide) rfl

/-! ## The interface backend: theorems -/

/-- The closing loop, when it returns, has cleaned up the slots from `i` on, one
call per stored interface, in order. -/
theorem ucp_listener_close_ifaces_loop_trace (listener_ptr lw : Nat)
    (ws : List ucp_worker_iface) (i : Nat) (q q' : List ucs_callbackq_elem)
    (tr : List Event)
    (h : ucp_listener_close_ifaces_loop listener_ptr lw ws i q = some (q', tr)) :
    tr = (List.range' i ws.length).map Event.ucp_worker_iface_cleanup := by
  induction ws generalizing i q q' tr with
  | nil =>
    simp only [ucp_listener_close_ifaces_loop, Option.some.injEq, Prod.mk.injEq] at h
    simp [← h.2]
  | cons w ws ih =>
    unfold ucp_listener_close_ifaces_loop at h
    split_ifs at h
    simp only [] at h
    cases hrec : ucp_listener_close_ifaces_loop listener_ptr lw ws (i + 1)
        (ucs_callbackq_remove_if q ucp_listener_remove_filter listener_ptr) with
    | none => simp [hrec] at h
    | some r =>
      obtain ⟨q1, tr1⟩ := r
      simp only [hrec, Option.some.injEq, Prod.mk.injEq] at h
      obtain ⟨_, rfl⟩ := h
      rw [ih (i + 1) _ q1 tr1 hrec]
      simp [List.range'_succ]

/-- The closing loop returns when every stored interface belongs to the
listener's worker. -/
theorem ucp_listener_close_ifaces_loop_some (listener_ptr lw : Nat)
    (ws : List ucp_worker_iface) (i : Nat) (q : List ucs_callbackq_elem)
    (hw : ∀ w ∈ ws, w.worker = lw) :
    ∃ r, ucp_listener_close_ifaces_loop listener_ptr lw ws i q = some r := by
  induction ws generalizing i q with
  | nil => exact ⟨_, rfl⟩
  | cons w ws ih =>
    unfold ucp_listener_close_ifaces_loop
    have hww : w.worker = lw := hw w (List.mem_cons_self w ws)
    obtain ⟨r, hr⟩ := ih (i + 1)
      (ucs_callbackq_remove_if q ucp_listener_remove_filter listener_ptr)
      (fun w' hw' => hw w' (List.mem_cons_of_mem w hw'))
    simp [hww, hr]

/-- On an interface-mode worker, closing a listener whose interfaces all belong
to its worker returns, with one cleanup per stored interface followed by the
release of the array. -/
theorem ucp_listener_close_ifaces_some (worker : ucp_worker) (listener_ptr : Nat)
    (l : ucp_listener) (hcm : worker.sockaddr_is_cm_proto = false)
    (hw : ∀ w ∈ l.ifaces, w.worker = l.worker) :
    ∃ worker', ucp_listener_close_ifaces worker listener_ptr l =
      some (worker', (List.range' 0 l.ifaces.length).map Event.ucp_worker_iface_cleanup ++
        [Event.ucs_free_wifaces]) := by
  obtain ⟨⟨q, tr⟩, hr⟩ := ucp_listener_close_ifaces_loop_some listener_ptr l.worker l.ifaces 0
    worker.progress_q hw
  have htr := ucp_listener_close_ifaces_loop_trace listener_ptr l.worker l.ifaces 0
    worker.progress_q q tr hr
  unfold ucp_listener_close_ifaces
  simp only [hcm, hr, Bool.false_eq_true, if_false]
  exact ⟨_, by rw [htr]⟩

/-- Every interface stored by the loop belongs to the worker it was opened for. -/
theorem ucp_listen_on_iface_loop_worker (wakeup : Bool) (worker_ptr : Nat)
    (rs : List tl_outcome) (n port ap : Nat) :
    ∀ w ∈ (ucp_listen_on_iface_loop wakeup worker_ptr rs n port ap).wifaces,
      w.worker = worker_ptr := by
  induction rs generalizing n port ap with
  | nil => simp [ucp_listen_on_iface_loop]
  | cons r rs ih =>
    unfold ucp_listen_on_iface_loop
    simp only []
    split_ifs
    · exact ih n port ap
    all_goals try simp
    all_goals exact ih _ _ _

/-- The guarded set-port call opens and cleans up nothing. -/
theorem set_port_events_slots (port : Nat) (r : tl_outcome) :
    opened_slots (set_port_events port r) = [] ∧
    cleaned_slots (set_port_events port r) = [] ∧
    iface_open_calls (set_port_events port r) = [] := by
  unfold set_port_events opened_slots cleaned_slots iface_open_calls
  split_ifs <;> simp

/-- The opened slots of a concatenation. -/
theorem opened_slots_append (a b : List Event) :
    opened_slots (a ++ b) = opened_slots a ++ opened_slots b := by
  simp [opened_slots]

/-- The cleaned slots of a concatenation. -/
theorem cleaned_slots_append (a b : List Event) :
    cleaned_slots (a ++ b) = cleaned_slots a ++ cleaned_slots b := by
  simp [cleaned_slots]

/-- The open calls of a concatenation. -/
theorem iface_open_calls_append (a b : List Event) :
    iface_open_calls (a ++ b) = iface_open_calls a ++ iface_open_calls b := by
  simp [iface_open_calls]

/-- The trace of the loop opens the slots from `sockaddr_tls` on, one per stored
interface, in order; the only cleanup inside the loop is that of the interface
opened last, in the slot after the stored ones, and only when the loop is left
through the error label. -/
theorem ucp_listen_on_iface_loop_slots (wakeup : Bool) (worker_ptr : Nat)
    (rs : List tl_outcome) (n port ap : Nat) :
    opened_slots (ucp_listen_on_iface_loop wakeup worker_ptr rs n port ap).trace =
      List.range' n (ucp_listen_on_iface_loop wakeup worker_ptr rs n port ap).wifaces.length ++
        cleaned_slots (ucp_listen_on_iface_loop wakeup worker_ptr rs n port ap).trace ∧
    (cleaned_slots (ucp_listen_on_iface_loop wakeup worker_ptr rs n port ap).trace = [] ∨
      cleaned_slots (ucp_listen_on_iface_loop wakeup worker_ptr rs n port ap).trace =
        [n + (ucp_listen_on_iface_loop wakeup worker_ptr rs n port ap).wifaces.length]) ∧
    ((ucp_listen_on_iface_loop wakeup worker_ptr rs n port ap).exit = none →
      cleaned_slots (ucp_listen_on_iface_loop wakeup worker_ptr rs n port ap).trace = []) := by
  induction rs generalizing n port ap with
  | nil => simp [ucp_listen_on_iface_loop, opened_slots, cleaned_slots]
  | cons r rs ih =>
    obtain ⟨hs1, hs2, _⟩ := set_port_events_slots port r
    unfold ucp_listen_on_iface_loop
    simp only []
    split_ifs with h1 h2 h3 h4 h5
    · exact ih n port ap
    · simp [opened_slots, cleaned_slots]
    · simp [hs1, hs2]
    · simp only [opened_slots_append, cleaned_slots_append, hs1, hs2]
      simp [opened_slots, cleaned_slots, h4]
    · have h4' : r.open_status = UCS_OK := not_not.mp h4
      simp only [opened_slots_append, cleaned_slots_append, hs1, hs2]
      simp [opened_slots, cleaned_slots, h4']
    · have h4' : r.open_status = UCS_OK := not_not.mp h4
      obtain ⟨e1, e2, e3⟩ := ih (n + 1) r.listen_port (listen_addr_port port ap)
      simp only [opened_slots_append, cleaned_slots_append, hs1, hs2, List.nil_append,
        List.length_cons]
      have ho : opened_slots
          [Event.ucp_worker_iface_open n (listen_addr_port port ap) r,
           Event.ucp_worker_iface_init n r.init_status] = [n] := by
        simp [opened_slots, h4']
      have hc : cleaned_slots
          [Event.ucp_worker_iface_open n (listen_addr_port port ap) r,
           Event.ucp_worker_iface_init n r.init_status] = [] := by
        simp [cleaned_slots]
      rw [ho, hc, e1]
      refine ⟨?_, ?_, e3⟩
      · simp [List.range'_succ]
      · rcases e2 with e2 | e2
        · exact Or.inl (by simpa using e2)
        · refine Or.inr ?_
          simp only [List.nil_append]
          rw [e2]
          congr 1
          omega

/-- A run of cleanup calls cleans up exactly its slots and opens nothing. -/
theorem cleanup_calls_slots (slots : List Nat) :
    cleaned_slots (slots.map Event.ucp_worker_iface_cleanup) = slots ∧
    opened_slots (slots.map Event.ucp_worker_iface_cleanup) = [] ∧
    iface_open_calls (slots.map Event.ucp_worker_iface_cleanup) = [] := by
  induction slots with
  | nil => simp [cleaned_slots, opened_slots, iface_open_calls]
  | cons a slots ih =>
    obtain ⟨h1, h2, h3⟩ := ih
    unfold cleaned_slots opened_slots iface_open_calls at *
    simp [h1, h2, h3]

/-- On an interface-mode worker `ucp_listen_on_iface` always returns; when it
returns an error, the interfaces it opened are exactly the interfaces it cleaned
up, each of them once. -/
theorem ucp_listen_on_iface_rollback (env : create_env) (worker : ucp_worker)
    (listener_ptr : Nat) (l : ucp_listener) (addr : sockaddr)
    (hcm : worker.sockaddr_is_cm_proto = false) :
    ∃ res, ucp_listen_on_iface env worker listener_ptr l addr = some res ∧
      (res.status ≠ UCS_OK →
        (cleaned_slots res.trace).Perm (opened_slots res.trace) ∧
        (opened_slots res.trace).Nodup) := by
  unfold ucp_listen_on_iface
  by_cases hport : env.get_port_status ≠ UCS_OK
  · rw [if_pos hport]
    exact ⟨_, rfl, fun _ => by simp [cleaned_slots, opened_slots]⟩
  · rw [if_neg hport]
    simp only []
    obtain ⟨e1, e2, e3⟩ := ucp_listen_on_iface_loop_slots env.features_wakeup l.worker env.tls 0
      addr.port addr.port
    have hw := ucp_listen_on_iface_loop_worker env.features_wakeup l.worker env.tls 0
      addr.port addr.port
    generalize ucp_listen_on_iface_loop env.features_wakeup l.worker env.tls 0
      addr.port addr.port = r at e1 e2 e3 hw
    obtain ⟨worker', hclose⟩ := ucp_listener_close_ifaces_some worker listener_ptr
      { l with ifaces := r.wifaces } hcm hw
    simp only [] at hclose
    obtain ⟨c1, c2, _⟩ := cleanup_calls_slots (List.range' 0 r.wifaces.length)
    have hfree : cleaned_slots [Event.ucs_free_wifaces] = [] ∧
        opened_slots [Event.ucs_free_wifaces] = [] := by
      simp [cleaned_slots, opened_slots]
    have hrollback :
        (cleaned_slots (r.trace ++
          (List.map Event.ucp_worker_iface_cleanup (List.range' 0 r.wifaces.length) ++
            [Event.ucs_free_wifaces]))).Perm
          (opened_slots (r.trace ++
            (List.map Event.ucp_worker_iface_cleanup (List.range' 0 r.wifaces.length) ++
              [Event.ucs_free_wifaces]))) ∧
        (opened_slots (r.trace ++
          (List.map Event.ucp_worker_iface_cleanup (List.range' 0 r.wifaces.length) ++
            [Event.ucs_free_wifaces]))).Nodup := by
      simp only [cleaned_slots_append, opened_slots_append, c1, c2, hfree.1, hfree.2,
        List.append_nil, e1]
      refine ⟨List.perm_append_comm, ?_⟩
      rcases e2 with e2 | e2
      · rw [e2, List.append_nil]
        exact List.nodup_range' 0 r.wifaces.length
      · rw [e2]
        rw [List.nodup_append]
        refine ⟨List.nodup_range' 0 r.wifaces.length, List.nodup_singleton _, ?_⟩
        intro a ha hb
        rw [List.mem_singleton] at hb
        rw [List.mem_range'_1] at ha
        omega
    cases hexit : r.exit with
    | some status =>
      simp only [hclose]
      exact ⟨_, rfl, fun _ => hrollback⟩
    | none =>
      by_cases hlen : r.wifaces.length = 0
      · simp only [hlen] at hrollback hclose
        simp only [hlen, if_true, hclose]
        exact ⟨_, rfl, fun _ => hrollback⟩
      · simp only [hlen, if_false]
        exact ⟨_, rfl, fun h => absurd rfl h⟩

/-- On an interface-mode worker the backend part of `ucp_listener_create` always
returns; when it returns an error, every interface opened was cleaned up exactly
once and `*listener_p` is as it was. -/
theorem ucp_listener_create_backend_rollback (env : create_env) (worker : ucp_worker)
    (listener_ptr : Nat) (l : ucp_listener) (addr : sockaddr) (listener_p : Option Nat)
    (trace : List Event) (hcm : worker.sockaddr_is_cm_proto = false)
    (ht : opened_slots trace = [] ∧ cleaned_slots trace = []) :
    ∃ r, ucp_listener_create_backend env worker listener_ptr l addr listener_p trace = some r ∧
      (r.status ≠ UCS_OK →
        (cleaned_slots r.trace).Perm (opened_slots r.trace) ∧
        (opened_slots r.trace).Nodup ∧ r.listener_p = listener_p ∧ r.listener = none) := by
  obtain ⟨res, hres, hroll⟩ := ucp_listen_on_iface_rollback env worker listener_ptr l addr hcm
  unfold ucp_listener_create_backend
  simp only [hcm, hres, Bool.false_eq_true, if_false]
  by_cases hst : res.status = UCS_OK
  · rw [if_pos hst]
    exact ⟨_, rfl, fun h => absurd hst h⟩
  · rw [if_neg hst]
    have hfree : cleaned_slots [Event.ucs_free listener_ptr] = [] ∧
        opened_slots [Event.ucs_free listener_ptr] = [] := by
      simp [cleaned_slots, opened_slots]
    refine ⟨_, rfl, fun _ => ⟨?_, ?_, rfl, rfl⟩⟩
    · simp only [cleaned_slots_append, opened_slots_append, ht.1, ht.2, hfree.1,
        hfree.2, List.append_nil, List.nil_append]
      exact (hroll hst).1
    · simp only [cleaned_slots_append, opened_slots_append, ht.1, ht.2, hfree.1,
        hfree.2, List.append_nil, List.nil_append]
      exact (hroll hst).2

/-- On the interface backend every `ucp_listener_create` call returns, and
whenever the returned status is an error, every interface that the call opened
successfully was cleaned up exactly once, `*listener_p` is as it was and no
listener object is left allocated. -/
theorem ucp_listener_create_error_rollback (env : create_env) (worker : ucp_worker)
    (worker_ptr : Nat) (params : ucp_listener_params) (listener_p : Option Nat)
    (hcm : worker.sockaddr_is_cm_proto = false) :
    ∃ r, ucp_listener_create env worker worker_ptr params listener_p = some r ∧
      (r.status ≠ UCS_OK →
        (cleaned_slots r.trace).Perm (opened_slots r.trace) ∧
        (opened_slots r.trace).Nodup ∧ r.listener_p = listener_p ∧ r.listener = none) := by
  have hfail : ∀ (st : ucs_status_t) (tr : List Event),
      opened_slots tr = [] → cleaned_slots tr = [] →
      ∃ r, (some { status := st, listener_p := listener_p, listener := none,
                   worker := worker, trace := tr } : Option create_result) = some r ∧
        (r.status ≠ UCS_OK →
          (cleaned_slots r.trace).Perm (opened_slots r.trace) ∧
          (opened_slots r.trace).Nodup ∧ r.listener_p = listener_p ∧ r.listener = none) := by
    intro st tr h1 h2
    refine ⟨_, rfl, fun _ => ⟨?_, ?_, rfl, rfl⟩⟩
    · show (cleaned_slots tr).Perm (opened_slots tr)
      rw [h1, h2]
    · show (opened_slots tr).Nodup
      rw [h1]
      exact List.nodup_nil
  have halloc : ∀ p, opened_slots [Event.ucs_calloc_listener p] = [] ∧
      cleaned_slots [Event.ucs_calloc_listener p] = [] := by
    intro p
    simp [cleaned_slots, opened_slots]
  have hallocfree : ∀ p q, opened_slots [Event.ucs_calloc_listener p, Event.ucs_free q] = [] ∧
      cleaned_slots [Event.ucs_calloc_listener p, Event.ucs_free q] = [] := by
    intro p q
    simp [cleaned_slots, opened_slots]
  unfold ucp_listener_create
  cases hsa : params.field_mask.UCP_LISTENER_PARAM_FIELD_SOCK_ADDR <;>
  cases haddr : params.sockaddr_addr <;>
  cases hacc : params.field_mask.UCP_LISTENER_PARAM_FIELD_ACCEPT_HANDLER <;>
  cases hconn : params.field_mask.UCP_LISTENER_PARAM_FIELD_CONN_HANDLER <;>
  cases hal : env.listener_alloc <;>
  cases hacb : params.accept_handler_cb <;>
  cases hccb : params.conn_handler_cb <;>
  simp only [Bool.not_true, Bool.not_false, Bool.and_true, Bool.and_false,
    Bool.false_eq_true, if_true, if_false] <;>
  first
    | exact hfail _ _ rfl rfl
    | exact hfail _ _ (halloc _).1 (halloc _).2
    | exact hfail _ _ (hallocfree _ _).1 (hallocfree _ _).2
    | exact ucp_listener_create_backend_rollback env worker _ _ _ listener_p _ hcm (halloc _)

/-- Consecutive open calls of the loop are related by `port_follows`, and the
first call of the loop asks for the local `port`, or for the port already
written in the address when `port` is 0. -/
theorem ucp_listen_on_iface_loop_chain (wakeup : Bool) (worker_ptr : Nat)
    (rs : List tl_outcome) (n port ap : Nat) :
    List.Chain' port_follows
      (iface_open_calls (ucp_listen_on_iface_loop wakeup worker_ptr rs n port ap).trace) ∧
    ∀ a ∈ (iface_open_calls
        (ucp_listen_on_iface_loop wakeup worker_ptr rs n port ap).trace).head?,
      a.1 = listen_addr_port port ap := by
  induction rs generalizing n port ap with
  | nil => simp [ucp_listen_on_iface_loop, iface_open_calls]
  | cons r rs ih =>
    obtain ⟨_, _, hs⟩ := set_port_events_slots port r
    unfold ucp_listen_on_iface_loop
    simp only []
    split_ifs with h1 h2 h3 h4 h5
    · exact ih n port ap
    · simp [iface_open_calls]
    · simp [hs]
    · simp only [iface_open_calls_append, hs]
      simp [iface_open_calls]
    · simp only [iface_open_calls_append, hs]
      simp [iface_open_calls]
    · obtain ⟨e1, e2⟩ := ih (n + 1) r.listen_port (listen_addr_port port ap)
      have ho : iface_open_calls
          [Event.ucp_worker_iface_open n (listen_addr_port port ap) r,
           Event.ucp_worker_iface_init n r.init_status] =
          [(listen_addr_port port ap, r)] := by
        simp [iface_open_calls]
      simp only [iface_open_calls_append, hs, ho, List.nil_append, List.singleton_append]
      refine ⟨?_, by simp⟩
      rw [List.chain'_cons']
      refine ⟨?_, e1⟩
      intro b hb
      have := e2 b hb
      unfold port_follows
      refine ⟨not_not.mp h4, ?_, ?_⟩
      · by_contra hinit
        exact h5 (Or.inl hinit)
      · simpa [listen_addr_port] using this

/-- The teardown of the interfaces makes no open call. -/
theorem ucp_listener_close_ifaces_calls (worker worker' : ucp_worker) (listener_ptr : Nat)
    (l : ucp_listener) (tr : List Event)
    (h : ucp_listener_close_ifaces worker listener_ptr l = some (worker', tr)) :
    iface_open_calls tr = [] := by
  unfold ucp_listener_close_ifaces at h
  split_ifs at h
  cases hloop : ucp_listener_close_ifaces_loop listener_ptr l.worker l.ifaces 0
      worker.progress_q with
  | none => simp [hloop] at h
  | some r =>
    obtain ⟨q1, tr1⟩ := r
    simp only [hloop, Option.some.injEq, Prod.mk.injEq] at h
    have htr := ucp_listener_close_ifaces_loop_trace listener_ptr l.worker l.ifaces 0
      worker.progress_q q1 tr1 hloop
    rw [← h.2, htr, iface_open_calls_append, (cleanup_calls_slots _).2.2]
    simp [iface_open_calls]

/-- The open calls of `ucp_listen_on_iface` are related by `port_follows`, and
the first of them asks for the port of the target address. -/
theorem ucp_listen_on_iface_chain (env : create_env) (worker : ucp_worker)
    (listener_ptr : Nat) (l : ucp_listener) (addr : sockaddr) (res : listen_result)
    (hres : ucp_listen_on_iface env worker listener_ptr l addr = some res) :
    List.Chain' port_follows (iface_open_calls res.trace) ∧
    ∀ a ∈ (iface_open_calls res.trace).head?, a.1 = addr.port := by
  obtain ⟨e1, e2⟩ := ucp_listen_on_iface_loop_chain env.features_wakeup l.worker env.tls 0
    addr.port addr.port
  have e2' : ∀ a ∈ (iface_open_calls (ucp_listen_on_iface_loop env.features_wakeup l.worker
      env.tls 0 addr.port addr.port).trace).head?, a.1 = addr.port := by
    intro a ha
    have := e2 a ha
    simpa [listen_addr_port] using this
  unfold ucp_listen_on_iface at hres
  split_ifs at hres with hport
  · simp only [Option.some.injEq] at hres
    rw [← hres]
    simp [iface_open_calls]
  · simp only [] at hres
    generalize ucp_listen_on_iface_loop env.features_wakeup l.worker env.tls 0
      addr.port addr.port = r at e1 e2' hres
    have hclose : ∀ status, (match ucp_listener_close_ifaces worker listener_ptr
          { l with ifaces := r.wifaces } with
        | none => none
        | some (worker, trace) =>
          some { status := status, listener := { l with ifaces := r.wifaces },
                 worker := worker, addr_port := r.addr_port,
                 trace := r.trace ++ trace : listen_result }) = some res →
        iface_open_calls res.trace = iface_open_calls r.trace := by
      intro status h
      cases hc : ucp_listener_close_ifaces worker listener_ptr
          { l with ifaces := r.wifaces } with
      | none => simp [hc] at h
      | some p =>
        obtain ⟨w', tr⟩ := p
        simp only [hc, Option.some.injEq] at h
        rw [← h]
        simp only [iface_open_calls_append,
          ucp_listener_close_ifaces_calls worker w' listener_ptr _ tr hc, List.append_nil]
    cases hexit : r.exit with
    | some status =>
      simp only [hexit] at hres
      rw [hclose status hres]
      exact ⟨e1, e2'⟩
    | none =>
      simp only [hexit] at hres
      by_cases hlen : r.wifaces.length = 0
      · simp only [hlen, if_true] at hres
        rw [hclose _ hres]
        exact ⟨e1, e2'⟩
      · simp only [hlen, if_false, Option.some.injEq] at hres
        rw [← hres]
        exact ⟨e1, e2'⟩

/-- In a chain, the elements at two consecutive positions are related. -/
theorem chain_consecutive {α : Type} (R : α → α → Prop) (l : List α)
    (h : List.Chain' R l) (k : Nat) (a b : α) (ha : l[k]? = some a)
    (hb : l[k + 1]? = some b) : R a b := by
  induction l generalizing k with
  | nil => simp at ha
  | cons x t ih =>
    cases k with
    | zero =>
      simp only [List.getElem?_cons_zero, Option.some.injEq] at ha
      simp only [List.getElem?_cons_succ] at hb
      rw [List.chain'_cons'] at h
      rw [← ha]
      exact h.1 b (by
        cases t with
        | nil => simp at hb
        | cons y t' =>
          simp only [List.getElem?_cons_zero, Option.some.injEq] at hb
          simp [hb])
    | succ k =>
      simp only [List.getElem?_cons_succ] at ha hb
      exact ih (List.Chain'.tail h) k ha hb

/-- In a chain of open calls that starts by asking for port 0, a call asks for
the listen port of the first interface as long as every interface opened in
between reported the port its call asked for. -/
theorem port_follows_first (l : List (Nat × tl_outcome)) (h : List.Chain' port_follows l)
    (hhead : ∀ a ∈ l.head?, a.1 = 0) (k : Nat) (b : Nat × tl_outcome)
    (hb : l[k + 1]? = some b)
    (hkeep : ∀ j c, 1 ≤ j → j ≤ k → l[j]? = some c → c.2.listen_port = c.1) :
    ∃ a0, l[0]? = some a0 ∧ b.1 = a0.2.listen_port := by
  induction k generalizing b with
  | zero =>
    cases ha : l[0]? with
    | none =>
      have := List.getElem?_eq_none_iff.1 ha
      have hlt : 0 + 1 < l.length := by
        by_contra hcon
        rw [List.getElem?_eq_none_iff.2 (by omega)] at hb
        cases hb
      omega
    | some a0 =>
      refine ⟨a0, rfl, ?_⟩
      have hR := chain_consecutive port_follows l h 0 a0 b ha hb
      have h0 : a0.1 = 0 := hhead a0 (by
        cases l with
        | nil => simp at ha
        | cons x t =>
          simp only [List.getElem?_cons_zero, Option.some.injEq] at ha
          simp [ha])
      unfold port_follows at hR
      rw [hR.2.2, h0]
      split_ifs with hz
      · rfl
      · exact (not_not.mp hz).symm
  | succ k ih =>
    cases ha : l[k + 1]? with
    | none =>
      have := List.getElem?_eq_none_iff.1 ha
      have hlt : k + 1 + 1 < l.length := by
        by_contra hcon
        rw [List.getElem?_eq_none_iff.2 (by omega)] at hb
        cases hb
      omega
    | some a =>
      obtain ⟨a0, ha0, hfirst⟩ := ih a ha (fun j c h1 h2 hc => hkeep j c h1 (by omega) hc)
      refine ⟨a0, ha0, ?_⟩
      have hR := chain_consecutive port_follows l h (k + 1) a b ha hb
      have hk := hkeep (k + 1) a (by omega) (le_refl _) ha
      unfold port_follows at hR
      rw [hR.2.2, hk]
      split_ifs <;> exact hfirst

/-- Whatever the transports report, two consecutive open calls of
`ucp_listen_on_iface` with requested port 0 are related as follows: the earlier
interface was opened and initialised, and the later call asks for the listen
port that this immediately preceding interface reported, whenever that port is
not 0 (the local port is read again after every successful open). -/
theorem ucp_listen_on_iface_port_follows (env : create_env) (worker : ucp_worker)
    (listener_ptr : Nat) (l : ucp_listener) (addr : sockaddr)
    (calls : List (Nat × tl_outcome)) (hport : addr.port = 0)
    (hcalls : (ucp_listen_on_iface env worker listener_ptr l addr).map
      (fun res => iface_open_calls res.trace) = some calls)
    (k : Nat) (a b : Nat × tl_outcome) (ha : calls[k]? = some a)
    (hb : calls[k + 1]? = some b) :
    (a.2.open_status = UCS_OK ∧ a.2.init_status = UCS_OK) ∧
    (a.2.listen_port ≠ 0 → b.1 = a.2.listen_port) ∧
    (k = 0 → b.1 = a.2.listen_port) ∧
    ((∀ j c, 1 ≤ j → j ≤ k → calls[j]? = some c → c.2.listen_port = c.1) →
      ∃ a0, calls[0]? = some a0 ∧ b.1 = a0.2.listen_port) := by
  cases hres : ucp_listen_on_iface env worker listener_ptr l addr with
  | none => simp [hres] at hcalls
  | some res =>
    simp only [hres, Option.map_some', Option.some.injEq] at hcalls
    obtain ⟨hchain, hhead⟩ := ucp_listen_on_iface_chain env worker listener_ptr l addr res hres
    rw [hcalls, hport] at hhead
    rw [hcalls] at hchain
    have hR := chain_consecutive port_follows calls hchain k a b ha hb
    have hfirst := port_follows_first calls hchain hhead k b hb
    refine ⟨⟨hR.1, hR.2.1⟩, ?_, ?_, hfirst⟩
    · intro hne
      rw [hR.2.2, if_pos hne]
    · intro hk
      subst hk
      obtain ⟨a0, ha0, hb0⟩ := hfirst (fun j c h1 h2 _ => by omega)
      rw [ha] at ha0
      cases ha0
      exact hb0

/-- An element followed by another one in a list is preceded by none only at
position 0: the position before an occupied position is occupied. -/
theorem getElem?_before {α : Type} (l : List α) (k : Nat) (b : α)
    (hb : l[k + 1]? = some b) : ∃ a, l[k]? = some a := by
  cases ha : l[k]? with
  | none =>
    have hlen := List.getElem?_eq_none_iff.1 ha
    rw [List.getElem?_eq_none_iff.2 (by omega)] at hb
    cases hb
  | some a => exact ⟨a, rfl⟩

/-- In a chain of open calls that respect the open contract, every call that
has a successor reports a port other than 0, and the successor asks for that
port. -/
theorem port_follows_contract (l : List (Nat × tl_outcome))
    (h : List.Chain' port_follows l) (hcontract : ∀ c ∈ l, open_contract c)
    (k : Nat) (a b : Nat × tl_outcome) (ha : l[k]? = some a) (hb : l[k + 1]? = some b) :
    a.2.listen_port ≠ 0 ∧ b.1 = a.2.listen_port := by
  have hR := chain_consecutive port_follows l h k a b ha hb
  have hmem : a ∈ l := by
    rw [List.mem_iff_getElem?]
    exact ⟨k, ha⟩
  have hc := hcontract a hmem hR.1
  refine ⟨hc.2, ?_⟩
  rw [hR.2.2, if_pos hc.2]

/-- In a chain of open calls that respect the open contract, every call after
the first asks for the listen port that the first interface reported. -/
theorem port_follows_contract_first (l : List (Nat × tl_outcome))
    (h : List.Chain' port_follows l) (hcontract : ∀ c ∈ l, open_contract c)
    (k : Nat) (b : Nat × tl_outcome) (hb : l[k + 1]? = some b) :
    ∃ a0, l[0]? = some a0 ∧ b.1 = a0.2.listen_port := by
  induction k generalizing b with
  | zero =>
    obtain ⟨a0, ha0⟩ := getElem?_before l 0 b hb
    exact ⟨a0, ha0, (port_follows_contract l h hcontract 0 a0 b ha0 hb).2⟩
  | succ k ih =>
    obtain ⟨a, ha⟩ := getElem?_before l (k + 1) b hb
    obtain ⟨p, hp⟩ := getElem?_before l k a ha
    obtain ⟨a0, ha0, hfirst⟩ := ih a ha
    refine ⟨a0, ha0, ?_⟩
    have hprev := port_follows_contract l h hcontract k p a hp ha
    have hnext := port_follows_contract l h hcontract (k + 1) a b ha hb
    have hR := chain_consecutive port_follows l h (k + 1) a b ha hb
    have hmem : a ∈ l := by
      rw [List.mem_iff_getElem?]
      exact ⟨k + 1, ha⟩
    have hkeep : a.2.listen_port = a.1 :=
      (hcontract a hmem hR.1).1 (by rw [hprev.2]; exact hprev.1)
    rw [hnext.2, hkeep]
    exact hfirst

/-- Claim C4: in `ucp_listen_on_iface`, when the port requested in the target
address is 0, for every sequence of transports whose opened interfaces respect
the open contract, the first open call asks for port 0, its interface is opened
and initialised (it is the first successfully opened interface of the listener),
and the port requested when opening each interface after the first equals the
listen port that this first interface reported. -/
theorem C4_first_port_dictates (env : create_env) (worker : ucp_worker)
    (listener_ptr : Nat) (l : ucp_listener) (addr : sockaddr)
    (calls : List (Nat × tl_outcome)) (hport : addr.port = 0)
    (hcalls : (ucp_listen_on_iface env worker listener_ptr l addr).map
      (fun res => iface_open_calls res.trace) = some calls)
    (hcontract : ∀ c ∈ calls, open_contract c)
    (k : Nat) (b : Nat × tl_outcome) (hb : calls[k + 1]? = some b) :
    ∃ a0, calls[0]? = some a0 ∧ a0.1 = 0 ∧
      a0.2.open_status = UCS_OK ∧ a0.2.init_status = UCS_OK ∧
      b.1 = a0.2.listen_port := by
  cases hres : ucp_listen_on_iface env worker listener_ptr l addr with
  | none => simp [hres] at hcalls
  | some res =>
    simp only [hres, Option.map_some', Option.some.injEq] at hcalls
    obtain ⟨hchain, hhead⟩ := ucp_listen_on_iface_chain env worker listener_ptr l addr res hres
    rw [hcalls, hport] at hhead
    rw [hcalls] at hchain
    obtain ⟨a0, ha0, hfirst⟩ := port_follows_contract_first calls hchain hcontract k b hb
    have hsecond : ∃ c, calls[0 + 1]? = some c := by
      clear hfirst
      induction k generalizing b with
      | zero => exact ⟨b, hb⟩
      | succ k ih =>
        obtain ⟨a, ha⟩ := getElem?_before calls (k + 1) b hb
        exact ih a ha
    obtain ⟨c, hc⟩ := hsecond
    have hR := chain_consecutive port_follows calls hchain 0 a0 c ha0 hc
    have h0 : a0.1 = 0 := hhead a0 (by
      cases calls with
      | nil => simp at ha0
      | cons x t =>
        simp only [List.getElem?_cons_zero, Option.some.injEq] at ha0
        simp [ha0])
    exact ⟨a0, ha0, h0, hR.1, hR.2.1, hfirst⟩

/-- Witness for C4: three transports, the first assigned port 5000; the third
open call asks for port 5000. -/
theorem C4_first_port_dictates_witness :
    (ucp_listen_on_iface env_one_port (worker_idle false) 100 listener_fresh ⟨2, 0⟩).map
      (fun res => iface_open_calls res.trace) = some calls_one_port ∧
    (∀ c ∈ calls_one_port, open_contract c) ∧
    ∃ a0, calls_one_port[0]? = some a0 ∧ a0.1 = 0 ∧
      a0.2.open_status = UCS_OK ∧ a0.2.init_status = UCS_OK ∧
      (5000, tl_on_5000 2).1 = a0.2.listen_port :=
  ⟨by decide, by decide,
   C4_first_port_dictates env_one_port (worker_idle false) 100 listener_fresh ⟨2, 0⟩
     calls_one_port rfl (by decide) (by decide) 1 (5000, tl_on_5000 2) (by decide)⟩

/-- Claim C5, evaluated on the code: under the wake-up feature, when the second
interface opens and initialises but lacks the asynchronous-callback capability,
the code cleans up both interfaces and releases the array through the error
label, yet the status it returns is still OK and `ucp_listener_create` writes
the listener to `*listener_p`. -/
theorem C5_missing_capability_returns_ok :
    (ucp_listener_create env_second_not_async (worker_idle false) 1 params_accept none).map
      (fun r => (r.status, r.listener_p, opened_slots r.trace, cleaned_slots r.trace,
        decide (Event.ucs_free_wifaces ∈ r.trace))) =
      some (UCS_OK, some 100, [0, 1], [1, 0], true) := by
  decide

/-- Witness for C9. -/
theorem C9_both_handlers_witness :
    ucp_listener_create env_three_ports (worker_idle false) 1
        { params_accept with
          field_mask := { params_accept.field_mask with
            UCP_LISTENER_PARAM_FIELD_CONN_HANDLER := true } } none =
      some { status := UCS_ERR_INVALID_PARAM, listener_p := none, listener := none,
             worker := worker_idle false, trace := [] } :=
  C9_both_handlers env_three_ports (worker_idle false) 1
    { params_accept with
      field_mask := { params_accept.field_mask with
        UCP_LISTENER_PARAM_FIELD_CONN_HANDLER := true } } none rfl rfl rfl

/-! ## At most one callback per listener -/

/-- The interface backend leaves the callbacks of the listener as they are. -/
theorem ucp_listen_on_iface_callbacks (env : create_env) (worker : ucp_worker)
    (listener_ptr : Nat) (l : ucp_listener) (addr : sockaddr) (res : listen_result)
    (hres : ucp_listen_on_iface env worker listener_ptr l addr = some res) :
    res.listener.accept_cb = l.accept_cb ∧ res.listener.conn_cb = l.conn_cb := by
  unfold ucp_listen_on_iface at hres
  split_ifs at hres with hport
  · simp only [Option.some.injEq] at hres
    rw [← hres]
    exact ⟨rfl, rfl⟩
  · simp only [] at hres
    generalize ucp_listen_on_iface_loop env.features_wakeup l.worker env.tls 0
      addr.port addr.port = r at hres
    cases hc : ucp_listener_close_ifaces worker listener_ptr { l with ifaces := r.wifaces } with
    | none =>
      cases hexit : r.exit with
      | some status => simp [hexit, hc] at hres
      | none =>
        by_cases hlen : r.wifaces.length = 0
        · simp [hexit, hc, hlen] at hres
        · simp only [hexit, hlen, if_false, Option.some.injEq] at hres
          rw [← hres]
          exact ⟨rfl, rfl⟩
    | some p =>
      obtain ⟨w', tr⟩ := p
      cases hexit : r.exit with
      | some status =>
        simp only [hexit, hc, Option.some.injEq] at hres
        rw [← hres]
        exact ⟨rfl, rfl⟩
      | none =>
        by_cases hlen : r.wifaces.length = 0
        · simp only [hexit, hc, hlen, if_true, Option.some.injEq] at hres
          rw [← hres]
          exact ⟨rfl, rfl⟩
        · simp only [hexit, hlen, if_false, Option.some.injEq] at hres
          rw [← hres]
          exact ⟨rfl, rfl⟩

/-- The connection-manager backend leaves the callbacks of the listener as they
are. -/
theorem ucp_listen_on_cm_callbacks (env : create_env) (worker : ucp_worker)
    (l : ucp_listener) (addr : sockaddr) (res : listen_result)
    (hres : ucp_listen_on_cm env worker l addr = some res) :
    res.listener.accept_cb = l.accept_cb ∧ res.listener.conn_cb = l.conn_cb := by
  have hclose : ∀ (l0 l1 : ucp_listener) (tr : List Event),
      ucp_listener_close_uct_listeners worker l0 = some (l1, tr) →
      l1.accept_cb = l0.accept_cb ∧ l1.conn_cb = l0.conn_cb := by
    intro l0 l1 tr h
    unfold ucp_listener_close_uct_listeners at h
    split_ifs at h
    simp only [Option.some.injEq, Prod.mk.injEq] at h
    rw [← h.1]
    exact ⟨rfl, rfl⟩
  unfold ucp_listen_on_cm at hres
  simp only [] at hres
  split_ifs at hres with halloc
  · simp only [Option.some.injEq] at hres
    rw [← hres]
    exact ⟨rfl, rfl⟩
  · cases hexit : (ucp_listen_on_cm_loop env.cms 0 addr.port).exit with
    | none =>
      simp only [hexit, Option.some.injEq] at hres
      rw [← hres]
      exact ⟨rfl, rfl⟩
    | some status =>
      simp only [hexit] at hres
      cases hc : ucp_listener_close_uct_listeners worker
          { l with cms := (ucp_listen_on_cm_loop env.cms 0 addr.port).listeners } with
      | none => simp [hc] at hres
      | some p =>
        obtain ⟨l1, tr⟩ := p
        simp only [hc, Option.some.injEq] at hres
        rw [← hres]
        exact hclose { l with cms := (ucp_listen_on_cm_loop env.cms 0 addr.port).listeners }
          l1 tr hc

/-- A listener that `ucp_listener_create` leaves allocated has at most one
callback; created with the accept-handler bit, it has that handler's callback
and no connection callback. -/
theorem ucp_listener_create_one_callback (env : create_env) (worker : ucp_worker)
    (worker_ptr : Nat) (params : ucp_listener_params) (listener_p : Option Nat)
    (r : create_result) (l : ucp_listener)
    (hr : ucp_listener_create env worker worker_ptr params listener_p = some r)
    (hl : r.listener = some l) :
    (l.accept_cb = none ∨ l.conn_cb = none) ∧
    (params.field_mask.UCP_LISTENER_PARAM_FIELD_ACCEPT_HANDLER = true →
      l.accept_cb = params.accept_handler_cb ∧ l.accept_cb ≠ none ∧ l.conn_cb = none) := by
  have hbackend : ∀ (ptr : Nat) (l0 : ucp_listener) (addr : sockaddr) (tr : List Event),
      ucp_listener_create_backend env worker ptr l0 addr listener_p tr = some r →
      l.accept_cb = l0.accept_cb ∧ l.conn_cb = l0.conn_cb := by
    intro ptr l0 addr tr h
    unfold ucp_listener_create_backend at h
    simp only [] at h
    cases hres : (if worker.sockaddr_is_cm_proto = true then
        ucp_listen_on_cm env worker l0 addr
        else ucp_listen_on_iface env worker ptr l0 addr) with
    | none => simp [hres] at h
    | some res =>
      have hcb : res.listener.accept_cb = l0.accept_cb ∧ res.listener.conn_cb = l0.conn_cb := by
        split_ifs at hres
        · exact ucp_listen_on_cm_callbacks env worker l0 addr res hres
        · exact ucp_listen_on_iface_callbacks env worker ptr l0 addr res hres
      simp only [hres] at h
      split_ifs at h
      · simp only [Option.some.injEq] at h
        rw [← h] at hl
        simp only [Option.some.injEq] at hl
        rw [← hl]
        exact hcb
      · simp only [Option.some.injEq] at h
        rw [← h] at hl
        cases hl
  unfold ucp_listener_create at hr
  revert hr
  cases hsa : params.field_mask.UCP_LISTENER_PARAM_FIELD_SOCK_ADDR <;>
  cases haddr : params.sockaddr_addr <;>
  cases hacc : params.field_mask.UCP_LISTENER_PARAM_FIELD_ACCEPT_HANDLER <;>
  cases hconn : params.field_mask.UCP_LISTENER_PARAM_FIELD_CONN_HANDLER <;>
  cases hal : env.listener_alloc <;>
  cases hacb : params.accept_handler_cb <;>
  cases hccb : params.conn_handler_cb <;>
  simp only [Bool.not_true, Bool.not_false, Bool.and_true, Bool.and_false,
    Bool.false_eq_true, if_true, if_false] <;>
  intro hr <;>
  first
    | (simp only [Option.some.injEq] at hr
       rw [← hr] at hl
       cases hl)
    | (obtain ⟨h1, h2⟩ := hbackend _ _ _ _ hr
       simp only [] at h1 h2
       simp [h1, h2])

end UcpListener
